import Mathlib

set_option maxRecDepth 10000

/-!
Shallow embedding of the query-time routing engine of the OSRM repository:
the guidance post-processing pipeline (src/engine/guidance/post_processing.cpp),
the many-to-many matrix algorithm
(include/engine/routing_algorithms/many_to_many.hpp), the static-graph
edge lookup, the router CLI option handling (src/tools/routed.cpp) and the
PhantomNode record layout (include/engine/phantom_node.hpp), together with
theorems settling the specification claims about them.
-/

namespace Osrm

/-! ## Guidance data model

Translated from include/engine/guidance/route_step.hpp and the headers it
relies on.  Enumerations whose defining header is not part of the sources
are modelled from the specification (§9 Variant instructions).
-/

/-- Modelled from the spec: the closed set of turn types listed in §9
(Variant instructions), including the combined AtExit / EnterAndExit
variants used by roundabout handling. -/
inductive TurnType where
  | Invalid | NewName | Continue | Turn | Merge | OnRamp | OffRamp | Fork
  | EndOfRoad | Notification
  | EnterRoundabout | EnterAndExitRoundabout | EnterRotary | EnterAndExitRotary
  | EnterRoundaboutIntersection | EnterAndExitRoundaboutIntersection
  | EnterRoundaboutAtExit | ExitRoundabout | EnterRotaryAtExit | ExitRotary
  | EnterRoundaboutIntersectionAtExit | ExitRoundaboutIntersection
  | StayOnRoundabout | Sliproad | Suppressed | NoTurn | UseLane
  deriving DecidableEq, Repr

/-- Modelled from the spec: the closed set of direction modifiers listed in
§9 (Variant instructions). -/
inductive DirectionModifier where
  | UTurn | SharpRight | Right | SlightRight | Straight | SlightLeft
  | Left | SharpLeft
  deriving DecidableEq, Repr

/-- Modelled from the spec: a turn instruction is a pair of turn type and
direction modifier (§9 Variant instructions). -/
structure TurnInstruction where
  type : TurnType
  direction_modifier : DirectionModifier
  deriving DecidableEq, Repr

/-- Modelled from the spec: the sentinel NO_TURN instruction emitted on the
depart/arrive sentinels (§4.9 Step 1); type NoTurn with the default
modifier. -/
def TurnInstruction.NO_TURN : TurnInstruction :=
  ⟨TurnType.NoTurn, DirectionModifier.UTurn⟩

/-- Modelled from the spec: waypoint type of a step maneuver (§3 RouteStep:
"waypoint type"); None for ordinary maneuvers, Depart/Arrive for the leg
endpoints. -/
inductive WaypointType where
  | None | Depart | Arrive
  deriving DecidableEq, Repr

/-- Fixed-point coordinate, from util/coordinate.hpp as described by the
data model (§3 Coordinate table: (lon,lat) in fixed-point micro-degrees). -/
structure Coordinate where
  lon : Int
  lat : Int
  deriving DecidableEq, Repr

/-- Modelled from the spec: the turn-lane tuple of an intersection
(§3 Intersection within a step). -/
structure LaneTupel where
  lanes_in_turn : Int
  first_lane_from_the_right : Int
  deriving DecidableEq, Repr

/-- Modelled from the spec: lane mask bits enumerate
{none, straight, sharp-right, right, slight-right, slight-left, left,
sharp-left, uturn, merge-to-left, merge-to-right} (§6 Turn-lane files). -/
def TurnLaneType.none : Nat := 1
/-- Modelled from the spec: the straight lane tag bit (§6 Turn-lane files). -/
def TurnLaneType.straight : Nat := 2

/-- An intersection along a step, translated from
include/engine/guidance/route_step.hpp (struct Intersection). Bearings are
integral; the in/out members index into the bearings array. -/
structure Intersection where
  location : Coordinate
  bearings : List Int
  entry : List Bool
  inIndex : Nat
  outIndex : Nat
  lanes : LaneTupel
  lane_description : List Nat
  deriving DecidableEq, Repr

/-- NO_INDEX sentinel of Intersection, from route_step.hpp. -/
def Intersection.NO_INDEX : Nat := 18446744073709551615

/-- getInvalidIntersection from route_step.hpp. -/
def getInvalidIntersection : Intersection :=
  ⟨⟨0, 0⟩, [], [], Intersection.NO_INDEX, Intersection.NO_INDEX, ⟨0, 0⟩, []⟩

/-- Modelled from the spec: the step maneuver record (§3 RouteStep:
"maneuver (turn type, direction modifier, location, bearing before/after,
exit count, waypoint type)"). -/
structure StepManeuver where
  instruction : TurnInstruction
  location : Coordinate
  bearing_before : Int
  bearing_after : Int
  exit : Nat
  waypoint_type : WaypointType
  deriving DecidableEq, Repr

/-- Modelled from the spec: the invalid step maneuver used by
getInvalidRouteStep; NO_TURN instruction with waypoint type None. -/
def getInvalidStepManeuver : StepManeuver :=
  ⟨TurnInstruction.NO_TURN, ⟨0, 0⟩, 0, 0, 0, WaypointType.None⟩

/-- A guidance route step, translated from
include/engine/guidance/route_step.hpp (struct RouteStep).  Durations and
distances are doubles in the source; they are embedded as integers, which
is exact for the integral values arising in the developments below. -/
structure RouteStep where
  name_id : Nat
  name : String
  ref : String
  pronunciation : String
  destinations : String
  rotary_name : String
  rotary_pronunciation : String
  duration : Int
  distance : Int
  mode : Nat
  maneuver : StepManeuver
  geometry_begin : Nat
  geometry_end : Nat
  intersections : List Intersection
  deriving DecidableEq, Repr

/-- getInvalidRouteStep from route_step.hpp: empty signage, zero metrics,
inaccessible travel mode (0), invalid maneuver and a single invalid
intersection. -/
def getInvalidRouteStep : RouteStep :=
  ⟨0, "", "", "", "", "", "", 0, 0, 0, getInvalidStepManeuver, 0, 0,
    [getInvalidIntersection]⟩

/-- EMPTY_NAMEID, modelled from the spec (name ids are dense; 0 denotes the
empty name). -/
def EMPTY_NAMEID : Nat := 0

/-- Read a step of the list; out-of-range reads yield the invalid step. -/
def stepAt (steps : List RouteStep) (i : Nat) : RouteStep :=
  steps.getD i getInvalidRouteStep

/-- First intersection of a step (front() in the source); total via the
invalid intersection default. -/
def frontIntersection (s : RouteStep) : Intersection :=
  s.intersections.headD getInvalidIntersection

/-! ## Guidance helper predicates

Modelled helpers whose defining headers (extractor/guidance/turn_instruction.hpp,
util/guidance/toolkit.hpp, util/bearing.hpp) are not among the sources, and
the helpers of src/engine/guidance/post_processing.cpp. -/

/-- Modelled from the spec: the instructions that enter a roundabout
(§4.9 Step 2, §9 Variant instructions: Enter… and combined EnterAndExit…
types, including the AtExit variants). -/
def entersRoundabout (i : TurnInstruction) : Prop :=
  i.type = TurnType.EnterRoundabout ∨ i.type = TurnType.EnterRotary ∨
  i.type = TurnType.EnterRoundaboutIntersection ∨
  i.type = TurnType.EnterRoundaboutAtExit ∨ i.type = TurnType.EnterRotaryAtExit ∨
  i.type = TurnType.EnterRoundaboutIntersectionAtExit ∨
  i.type = TurnType.EnterAndExitRoundabout ∨ i.type = TurnType.EnterAndExitRotary ∨
  i.type = TurnType.EnterAndExitRoundaboutIntersection

instance (i : TurnInstruction) : Decidable (entersRoundabout i) := by
  unfold entersRoundabout; infer_instance

/-- Modelled from the spec: the instructions that leave a roundabout
(§4.9 Step 2: Exit… and combined EnterAndExit… types). -/
def leavesRoundabout (i : TurnInstruction) : Prop :=
  i.type = TurnType.ExitRoundabout ∨ i.type = TurnType.ExitRotary ∨
  i.type = TurnType.ExitRoundaboutIntersection ∨
  i.type = TurnType.EnterAndExitRoundabout ∨ i.type = TurnType.EnterAndExitRotary ∨
  i.type = TurnType.EnterAndExitRoundaboutIntersection

instance (i : TurnInstruction) : Decidable (leavesRoundabout i) := by
  unfold leavesRoundabout; infer_instance

/-- Modelled from the spec: silent instructions are maintenance-only and
not part of the final output (§4.9: NoTurn sentinels, Suppressed and
StayOnRoundabout instructions). -/
def isSilent (i : TurnInstruction) : Prop :=
  i.type = TurnType.NoTurn ∨ i.type = TurnType.Suppressed ∨
  i.type = TurnType.StayOnRoundabout

instance (i : TurnInstruction) : Decidable (isSilent i) := by
  unfold isSilent; infer_instance

/-- Modelled from the spec: whether a name/ref change must be announced;
a change is noticeable when name or ref differ (§4.9 Step 3 name changes). -/
def requiresNameAnnounced (n1 r1 n2 r2 : String) : Prop :=
  n1 ≠ n2 ∨ r1 ≠ r2

instance (n1 r1 n2 r2 : String) : Decidable (requiresNameAnnounced n1 r1 n2 r2) := by
  unfold requiresNameAnnounced; infer_instance

/-- Modelled from the spec: angular deviation between an angle and a
reference, the smaller of the two arcs on the circle (§4.9 Step 3
"bearings nearly reversed"). -/
def angularDeviation (angle from_ : Int) : Int :=
  let deviation := |angle - from_|
  min (360 - deviation) deviation

/-- Modelled from the spec: the opposite bearing; bearings at or above 180
lose a half turn, others gain one (§4.9 Step 3 U-turn detection). -/
def reverseBearing (bearing : Int) : Int :=
  if bearing ≥ 180 then bearing - 180 else bearing + 180

/-- Modelled from the spec: classify a turn angle (180 is straight, below
180 are right turns, above are left turns) into the direction modifier
bands of §9. -/
def getTurnDirection (angle : Int) : DirectionModifier :=
  if 0 < angle ∧ angle < 60 then DirectionModifier.SharpRight
  else if 60 ≤ angle ∧ angle < 140 then DirectionModifier.Right
  else if 140 ≤ angle ∧ angle < 160 then DirectionModifier.SlightRight
  else if 160 ≤ angle ∧ angle ≤ 200 then DirectionModifier.Straight
  else if 200 < angle ∧ angle ≤ 220 then DirectionModifier.SlightLeft
  else if 220 < angle ∧ angle ≤ 300 then DirectionModifier.Left
  else if 300 < angle ∧ angle < 340 then DirectionModifier.SharpLeft
  else DirectionModifier.UTurn

/-- Modelled from the spec: mirror a direction modifier across the
straight axis (used when a Merge is rewritten to a Turn, §4.9 Step 3). -/
def mirrorDirectionModifier : DirectionModifier → DirectionModifier
  | DirectionModifier.UTurn => DirectionModifier.UTurn
  | DirectionModifier.SharpRight => DirectionModifier.SharpLeft
  | DirectionModifier.Right => DirectionModifier.Left
  | DirectionModifier.SlightRight => DirectionModifier.SlightLeft
  | DirectionModifier.Straight => DirectionModifier.Straight
  | DirectionModifier.SlightLeft => DirectionModifier.SlightRight
  | DirectionModifier.Left => DirectionModifier.Right
  | DirectionModifier.SharpLeft => DirectionModifier.SharpRight

/-! Helpers of src/engine/guidance/post_processing.cpp (anonymous
namespace), translated from the source. -/

/-- MIN_END_OF_ROAD_INTERSECTIONS from post_processing.cpp. -/
def MIN_END_OF_ROAD_INTERSECTIONS : Nat := 2

/-- MAX_COLLAPSE_DISTANCE from post_processing.cpp. -/
def MAX_COLLAPSE_DISTANCE : Int := 30

/-- hasManeuver: at least one of the two turns is an actual maneuver. -/
def hasManeuver (first second : RouteStep) : Prop :=
  first.maneuver.instruction.type ≠ TurnType.Suppressed ∨
  second.maneuver.instruction.type ≠ TurnType.Suppressed

instance (first second : RouteStep) : Decidable (hasManeuver first second) := by
  unfold hasManeuver; infer_instance

/-- forwardStepSignage: forward all signage/name data from origin to
destination. -/
def forwardStepSignage (destination : RouteStep) (origin : RouteStep) : RouteStep :=
  { destination with
    name_id := origin.name_id
    name := origin.name
    pronunciation := origin.pronunciation
    destinations := origin.destinations
    ref := origin.ref }

/-- choiceless: the previous road is short and the next turn offers at
most one valid entry. -/
def choiceless (step previous : RouteStep) : Prop :=
  previous.distance < 4 * MAX_COLLAPSE_DISTANCE ∧
  (frontIntersection step).entry.count true ≤ 1

instance (step previous : RouteStep) : Decidable (choiceless step previous) := by
  unfold choiceless; infer_instance

/-- isCollapsableInstruction: list of instruction kinds that may be
collapsed. -/
def isCollapsableInstruction (instruction : TurnInstruction) : Prop :=
  instruction.type = TurnType.NewName ∨
  (instruction.type = TurnType.Suppressed ∧
    instruction.direction_modifier = DirectionModifier.Straight) ∨
  (instruction.type = TurnType.Turn ∧
    instruction.direction_modifier = DirectionModifier.Straight) ∨
  (instruction.type = TurnType.Continue ∧
    instruction.direction_modifier = DirectionModifier.Straight) ∨
  instruction.type = TurnType.Merge

instance (instruction : TurnInstruction) : Decidable (isCollapsableInstruction instruction) := by
  unfold isCollapsableInstruction; infer_instance

/-- compatible: two steps may be merged only when their travel modes
agree. -/
def compatible (lhs rhs : RouteStep) : Prop := lhs.mode = rhs.mode

instance (lhs rhs : RouteStep) : Decidable (compatible lhs rhs) := by
  unfold compatible; infer_instance

/-- turn_angle: translate an entry/exit bearing pair into a turn angle on
the normal turn circle. -/
def turn_angle (entry_bearing exit_bearing : Int) : Int :=
  let offset := 360 - entry_bearing
  let rotated_exit :=
    let bearing := exit_bearing + offset
    if bearing > 360 then bearing - 360 else bearing
  let angle := 540 - rotated_exit
  if angle > 360 then angle - 360 else angle

/-- isNoticeableNameChange: a name change the user wants to know about. -/
def isNoticeableNameChange (lhs rhs : RouteStep) : Prop :=
  requiresNameAnnounced lhs.name lhs.ref rhs.name rhs.ref

instance (lhs rhs : RouteStep) : Decidable (isNoticeableNameChange lhs rhs) := by
  unfold isNoticeableNameChange; infer_instance

/-- Loop of nameSegmentLength: accumulate distances of follow-up steps as
long as no noticeable name change occurs. -/
def nameSegmentLengthGo (steps : List RouteStep) : Nat → Nat → Int → Int
  | 0, _, acc => acc
  | fuel + 1, at_, acc =>
    if at_ + 1 < steps.length ∧
        ¬ isNoticeableNameChange (stepAt steps at_) (stepAt steps (at_ + 1)) then
      nameSegmentLengthGo steps fuel (at_ + 1) (acc + (stepAt steps (at_ + 1)).distance)
    else acc

/-- nameSegmentLength: total distance travelled on the current name,
starting at the given index. -/
def nameSegmentLength (at_ : Nat) (steps : List RouteStep) : Int :=
  nameSegmentLengthGo steps steps.length at_ (stepAt steps at_).distance

/-- forwardInto: merge a turn into a silent turn; sums metrics, takes the
source exit number and concatenates intersections on the geometrically
correct side. -/
def forwardInto (destination source : RouteStep) : RouteStep :=
  let destination :=
    { destination with
      duration := destination.duration + source.duration
      distance := destination.distance + source.distance
      maneuver := { destination.maneuver with exit := source.maneuver.exit } }
  let destination :=
    if destination.geometry_begin < source.geometry_begin then
      { destination with intersections := destination.intersections ++ source.intersections }
    else
      { destination with intersections := source.intersections ++ destination.intersections }
  { destination with
    geometry_begin := min destination.geometry_begin source.geometry_begin
    geometry_end := max destination.geometry_end source.geometry_end }

/-- elongate (post_processing.cpp, public): extend a step by another step,
appending the data at the geometrically correct end. -/
def elongate (step by_step : RouteStep) : RouteStep :=
  let step :=
    { step with
      duration := step.duration + by_step.duration
      distance := step.distance + by_step.distance }
  if step.geometry_end = by_step.geometry_begin + 1 then
    { step with
      geometry_end := by_step.geometry_end
      intersections := step.intersections ++ by_step.intersections }
  else
    { step with
      geometry_begin := by_step.geometry_begin
      maneuver := by_step.maneuver
      intersections := by_step.intersections ++ step.intersections }

/-- collapsable (post_processing.cpp, public): whether two adjacent steps
can be treated as one. -/
def collapsable (step next : RouteStep) : Prop :=
  (step.distance < MAX_COLLAPSE_DISTANCE ∧
    isCollapsableInstruction step.maneuver.instruction) ∨
  (step.distance < MAX_COLLAPSE_DISTANCE ∧
    step.maneuver.instruction.type = TurnType.UseLane ∧
    (frontIntersection step).lanes = (frontIntersection next).lanes)

instance (step next : RouteStep) : Decidable (collapsable step next) := by
  unfold collapsable; infer_instance

/-- A step is removed by the NO_TURN sweep iff its instruction is the
NO_TURN sentinel and its waypoint type is None (not_is_valid in
removeNoTurnInstructions). -/
def isInvalidatedStep (step : RouteStep) : Prop :=
  step.maneuver.instruction = TurnInstruction.NO_TURN ∧
  step.maneuver.waypoint_type = WaypointType.None

instance (step : RouteStep) : Decidable (isInvalidatedStep step) := by
  unfold isInvalidatedStep; infer_instance

/-- removeNoTurnInstructions: final sweep removing every invalidated
step. -/
def removeNoTurnInstructions (steps : List RouteStep) : List RouteStep :=
  steps.filter (fun step => ¬ isInvalidatedStep step)

/-! ## In-place step mutation helpers

C++ mutates the steps vector in place; the embedding threads the list
through explicit element updates. -/

/-- Update the step at an index in place. -/
def modifyStep (steps : List RouteStep) (i : Nat) (f : RouteStep → RouteStep) :
    List RouteStep :=
  steps.set i (f (stepAt steps i))

/-- invalidateStep: reset a step to the invalid route step. -/
def invalidateAt (steps : List RouteStep) (i : Nat) : List RouteStep :=
  modifyStep steps i (fun _ => getInvalidRouteStep)

/-- Overwrite the turn type of the step at an index. -/
def setTypeAt (steps : List RouteStep) (i : Nat) (t : TurnType) : List RouteStep :=
  modifyStep steps i (fun s =>
    { s with maneuver :=
        { s.maneuver with instruction := { s.maneuver.instruction with type := t } } })

/-- Overwrite the direction modifier of the step at an index. -/
def setModifierAt (steps : List RouteStep) (i : Nat) (m : DirectionModifier) :
    List RouteStep :=
  modifyStep steps i (fun s =>
    { s with maneuver :=
        { s.maneuver with instruction :=
            { s.maneuver.instruction with direction_modifier := m } } })

/-- Overwrite the exit count of the step at an index. -/
def setExitAt (steps : List RouteStep) (i : Nat) (e : Nat) : List RouteStep :=
  modifyStep steps i (fun s => { s with maneuver := { s.maneuver with exit := e } })

/-- Replace lanes and lane description of a step's first intersection. -/
def setFrontIntersectionLanes (s : RouteStep) (lanes : LaneTupel)
    (desc : List Nat) : RouteStep :=
  match s.intersections with
  | [] => s
  | i :: rest =>
    { s with intersections := { i with lanes := lanes, lane_description := desc } :: rest }

/-! ## Roundabout accumulation (postProcess), translated from
src/engine/guidance/post_processing.cpp -/

/-- Loop body of fixFinalRoundabout, walking backwards from the end of the
leg; the argument is the current propagation index. -/
def fixFinalRoundaboutGo (steps : List RouteStep) : Nat → List RouteStep
  | 0 => steps
  | n + 1 =>
    let propagation_step := stepAt steps (n + 1)
    if entersRoundabout propagation_step.maneuver.instruction then
      let propagation_step :=
        { propagation_step with
          maneuver := { propagation_step.maneuver with exit := 0 } }
      let propagation_step :=
        if propagation_step.maneuver.instruction.type = TurnType.EnterRotary ∨
            propagation_step.maneuver.instruction.type = TurnType.EnterRotaryAtExit then
          { propagation_step with
            rotary_name := propagation_step.name
            rotary_pronunciation := propagation_step.pronunciation }
        else if propagation_step.maneuver.instruction.type =
              TurnType.EnterRoundaboutIntersection ∨
            propagation_step.maneuver.instruction.type =
              TurnType.EnterRoundaboutIntersectionAtExit then
          { propagation_step with
            maneuver := { propagation_step.maneuver with instruction :=
              { propagation_step.maneuver.instruction with
                type := TurnType.EnterRoundabout } } }
        else propagation_step
      steps.set (n + 1) propagation_step
    else if propagation_step.maneuver.instruction.type = TurnType.StayOnRoundabout then
      let steps := steps.set n (forwardInto (stepAt steps n) propagation_step)
      let steps := invalidateAt steps (n + 1)
      fixFinalRoundaboutGo steps n
    else fixFinalRoundaboutGo steps n

/-- fixFinalRoundabout: an unterminated roundabout is turned into a plain
enter instruction with the exit count cleared. -/
def fixFinalRoundabout (steps : List RouteStep) : List RouteStep :=
  fixFinalRoundaboutGo steps (steps.length - 1)

/-- setUpRoundabout: normalize combined enter+exit roundabout types; the
boolean result reports whether the roundabout was actually entered. -/
def setUpRoundabout (step : RouteStep) : RouteStep × Bool :=
  let instruction := step.maneuver.instruction
  let step :=
    if instruction.type = TurnType.EnterRotaryAtExit ∨
        instruction.type = TurnType.EnterRoundaboutAtExit ∨
        instruction.type = TurnType.EnterRoundaboutIntersectionAtExit then
      let step := { step with maneuver := { step.maneuver with exit := 1 } }
      if instruction.type = TurnType.EnterRotaryAtExit then
        { step with maneuver := { step.maneuver with instruction :=
            { step.maneuver.instruction with type := TurnType.EnterRotary } } }
      else if instruction.type = TurnType.EnterRoundaboutAtExit then
        { step with maneuver := { step.maneuver with instruction :=
            { step.maneuver.instruction with type := TurnType.EnterRoundabout } } }
      else
        { step with maneuver := { step.maneuver with instruction :=
            { step.maneuver.instruction with
              type := TurnType.EnterRoundaboutIntersection } } }
    else step
  if leavesRoundabout instruction then
    let step := { step with maneuver := { step.maneuver with exit := 1 } }
    let step :=
      if instruction.type = TurnType.EnterAndExitRotary then
        { step with maneuver := { step.maneuver with instruction :=
            { step.maneuver.instruction with type := TurnType.EnterRotary } } }
      else if instruction.type = TurnType.EnterAndExitRoundabout then
        { step with maneuver := { step.maneuver with instruction :=
            { step.maneuver.instruction with type := TurnType.EnterRoundabout } } }
      else
        { step with maneuver := { step.maneuver with instruction :=
            { step.maneuver.instruction with
              type := TurnType.EnterRoundaboutIntersection } } }
    (step, false)
  else (step, true)

/-- exitToEnter of closeOffRoundabout: translate an exit type into the
corresponding enter type. -/
def exitToEnter (t : TurnType) : TurnType :=
  if t = TurnType.ExitRotary then TurnType.EnterRotary
  else if t = TurnType.ExitRoundaboutIntersection then TurnType.EnterRoundabout
  else TurnType.EnterRoundabout

/-- Backward propagation loop of closeOffRoundabout: merge the trailing
silent steps into the entering step, carry the signage of the exit step
and invalidate the merged steps. -/
def closeOffGo (destination_copy : RouteStep) (exit_bearing : Int)
    (steps : List RouteStep) : Nat → List RouteStep
  | 0 => steps
  | n + 1 =>
    let propagation_index := n + 1
    let propagation_step :=
      forwardInto (stepAt steps propagation_index) (stepAt steps (propagation_index + 1))
    let steps := steps.set propagation_index propagation_step
    if entersRoundabout propagation_step.maneuver.instruction then
      let entry_intersection := frontIntersection propagation_step
      let propagation_step :=
        if propagation_step.maneuver.instruction.type = TurnType.EnterRotary ∨
            propagation_step.maneuver.instruction.type = TurnType.EnterRotaryAtExit then
          { propagation_step with
            rotary_name := propagation_step.name
            rotary_pronunciation := propagation_step.pronunciation }
        else if propagation_step.maneuver.instruction.type =
              TurnType.EnterRoundaboutIntersection ∨
            propagation_step.maneuver.instruction.type =
              TurnType.EnterRoundaboutIntersectionAtExit then
          let angle := turn_angle
            (reverseBearing (entry_intersection.bearings.getD entry_intersection.inIndex 0))
            exit_bearing
          { propagation_step with
            maneuver := { propagation_step.maneuver with instruction :=
              { propagation_step.maneuver.instruction with
                direction_modifier := getTurnDirection angle } } }
        else propagation_step
      let propagation_step := forwardStepSignage propagation_step destination_copy
      let steps := steps.set propagation_index propagation_step
      invalidateAt steps (propagation_index + 1)
    else
      closeOffGo destination_copy exit_bearing (invalidateAt steps (propagation_index + 1)) n

/-- closeOffRoundabout: on leaving a roundabout, propagate the exit count
back to the entering step; when the leg began on the roundabout, promote
the second step to a synthesized enter instruction. -/
def closeOffRoundabout (on_roundabout : Bool) (steps : List RouteStep)
    (step_index : Nat) : List RouteStep :=
  let steps := setExitAt steps step_index ((stepAt steps step_index).maneuver.exit + 1)
  let steps :=
    if on_roundabout then steps
    else
      let steps := modifyStep steps 0 (fun s => { s with geometry_end := 1 })
      let steps := modifyStep steps 1 (fun s => { s with geometry_begin := 0 })
      let steps := steps.set 1 (forwardInto (stepAt steps 1) (stepAt steps 0))
      let steps := modifyStep steps 1 (fun s =>
        { s with intersections := s.intersections.drop 1 })
      let steps :=
        if leavesRoundabout (stepAt steps 1).maneuver.instruction then
          setExitAt steps 1 1
        else steps
      let steps := modifyStep steps 0 (fun s => { s with duration := 0, distance := 0 })
      let steps := setTypeAt steps 1
        (exitToEnter (stepAt steps step_index).maneuver.instruction.type)
      if (stepAt steps 1).maneuver.instruction.type = TurnType.EnterRotary then
        modifyStep steps 1 (fun s =>
          { s with
            rotary_name := (stepAt steps 0).name
            rotary_pronunciation := (stepAt steps 0).pronunciation })
      else steps
  let exit_intersection := frontIntersection (stepAt steps step_index)
  let exit_bearing := exit_intersection.bearings.getD exit_intersection.outIndex 0
  let destination_copy := stepAt steps step_index
  if step_index > 1 then
    closeOffGo destination_copy exit_bearing steps (step_index - 1)
  else steps

/-- One iteration of the forward scan of postProcess; the state carries
the (on_roundabout, has_entered_roundabout) flags. -/
def postProcessBody (steps : List RouteStep) (step_index : Nat)
    (on_roundabout has_entered_roundabout : Bool) :
    List RouteStep × Bool × Bool :=
  let next_step_index := step_index + 1
  let step := stepAt steps step_index
  let instruction := step.maneuver.instruction
  if entersRoundabout instruction then
    let (step2, has_entered) := setUpRoundabout step
    let steps := steps.set step_index step2
    let steps :=
      if has_entered ∧ next_step_index < steps.length then
        setExitAt steps next_step_index step2.maneuver.exit
      else steps
    (steps, on_roundabout, has_entered)
  else if instruction.type = TurnType.StayOnRoundabout then
    let steps := setExitAt steps step_index (step.maneuver.exit + 1)
    let steps :=
      if next_step_index < steps.length then
        setExitAt steps next_step_index (stepAt steps step_index).maneuver.exit
      else steps
    (steps, true, has_entered_roundabout)
  else if leavesRoundabout instruction then
    (closeOffRoundabout has_entered_roundabout steps step_index, false, false)
  else if on_roundabout ∧ next_step_index < steps.length then
    (setExitAt steps next_step_index step.maneuver.exit, on_roundabout,
      has_entered_roundabout)
  else (steps, on_roundabout, has_entered_roundabout)

/-- Forward scan of postProcess over all step indices. -/
def postProcessLoopGo :
    Nat → Nat → List RouteStep → Bool → Bool → List RouteStep × Bool × Bool
  | 0, _, steps, on_r, has_e => (steps, on_r, has_e)
  | fuel + 1, i, steps, on_r, has_e =>
    if i < steps.length then
      let (steps, on_r, has_e) := postProcessBody steps i on_r has_e
      postProcessLoopGo fuel (i + 1) steps on_r has_e
    else (steps, on_r, has_e)

/-- postProcess: roundabout accumulation over the assembled steps followed
by the NO_TURN sweep. -/
def postProcess (steps : List RouteStep) : List RouteStep :=
  if steps.length = 2 then steps
  else
    let (steps, on_roundabout, has_entered_roundabout) :=
      postProcessLoopGo steps.length 0 steps false false
    let steps :=
      if has_entered_roundabout ∨ on_roundabout then fixFinalRoundabout steps
      else steps
    removeNoTurnInstructions steps

/-! ## Step collapsing (collapseTurns), translated from
src/engine/guidance/post_processing.cpp -/

/-- Walk towards the front of the list while the step at the index is a
NoTurn instruction (inner loop of getPreviousIndex). -/
def prevValidFrom (steps : List RouteStep) : Nat → Nat
  | 0 => 0
  | j + 1 =>
    if (stepAt steps (j + 1)).maneuver.instruction.type = TurnType.NoTurn then
      prevValidFrom steps j
    else j + 1

/-- getPreviousIndex of collapseTurns: previous non-invalid instruction. -/
def getPreviousIndex (steps : List RouteStep) (index : Nat) : Nat :=
  prevValidFrom steps (index - 1)

/-- Walk towards the front of the list while the step at the index has the
empty name id (inner loop of getPreviousNameIndex). -/
def prevNamedFrom (steps : List RouteStep) : Nat → Nat
  | 0 => 0
  | j + 1 =>
    if (stepAt steps (j + 1)).name_id = EMPTY_NAMEID then prevNamedFrom steps j
    else j + 1

/-- getPreviousNameIndex of collapseTurns: previous step carrying a name. -/
def getPreviousNameIndex (steps : List RouteStep) (index : Nat) : Nat :=
  prevNamedFrom steps (index - 1)

/-- Loop of canCollapseAll: only name changes and suppressed turns, with
pairwise compatible modes, up to the end index. -/
def canCollapseAllGo (steps : List RouteStep) (end_index : Nat) :
    Nat → Nat → Bool
  | 0, _ => true
  | fuel + 1, index =>
    if index < end_index then
      if (stepAt steps index).maneuver.instruction.type ≠ TurnType.Suppressed ∧
          (stepAt steps index).maneuver.instruction.type ≠ TurnType.NewName then
        false
      else if index + 1 < end_index ∧
          ¬ compatible (stepAt steps index) (stepAt steps (index + 1)) then
        false
      else canCollapseAllGo steps end_index fuel (index + 1)
    else true

/-- canCollapseAll of collapseTurns. -/
def canCollapseAll (steps : List RouteStep) (index end_index : Nat) : Bool :=
  canCollapseAllGo steps end_index (end_index - index) index

/-- getBearing of collapseTurnAt: in- or out-bearing of the first
intersection of a step. -/
def getBearing (inDirection : Bool) (step : RouteStep) : Int :=
  let front := frontIntersection step
  let index := if inDirection then front.inIndex else front.outIndex
  front.bearings.getD index 0

/-- bearingsAreReversed of collapseTurnAt: nearly perfectly reversed
bearings have a left-turn angle within 35 degrees of straight. -/
def bearingsAreReversed (bearing_in bearing_out : Int) : Prop :=
  let left_turn_angle :=
    if 0 ≤ bearing_out ∧ bearing_out ≤ bearing_in then bearing_in - bearing_out
    else bearing_in + 360 - bearing_out
  angularDeviation left_turn_angle 180 ≤ 35

instance (bearing_in bearing_out : Int) : Decidable (bearingsAreReversed bearing_in bearing_out) := by
  unfold bearingsAreReversed; infer_instance

/-- isStaggeredIntersection: two short opposing ~90 degree turns forming a
zig-zag. -/
def isStaggeredIntersection (previous current : RouteStep) : Prop :=
  let angleOf : RouteStep → Int := fun step =>
    let intersection := frontIntersection step
    turn_angle (intersection.bearings.getD intersection.inIndex 0)
      (intersection.bearings.getD intersection.outIndex 0)
  let is_right : Int → Prop := fun angle => angle > 45 ∧ angle < 135
  let is_left : Int → Prop := fun angle => angle > 225 ∧ angle < 315
  previous.distance < 3 ∧
  ((is_left (angleOf previous) ∧ is_right (angleOf current)) ∨
    (is_right (angleOf previous) ∧ is_left (angleOf current)))

instance (previous current : RouteStep) : Decidable (isStaggeredIntersection previous current) := by
  unfold isStaggeredIntersection; infer_instance

/-- collapseTurnAt: the collapse scenarios considered for the triple
(two_back, one_back, current). -/
def collapseTurnAt (steps : List RouteStep)
    (two_back_index one_back_index step_index : Nat) : List RouteStep :=
  let current_step := stepAt steps step_index
  let one_back_step := stepAt steps one_back_index
  if ¬ hasManeuver one_back_step current_step then steps
  else if (collapsable one_back_step current_step ∨
        (isCollapsableInstruction one_back_step.maneuver.instruction ∧
          choiceless current_step one_back_step)) ∧
      one_back_step.maneuver.instruction.type ≠ TurnType.Merge then
    -- Very Short New Name
    if compatible one_back_step (stepAt steps two_back_index) then
      let steps :=
        if current_step.maneuver.instruction.type = TurnType.Continue ∨
            (current_step.maneuver.instruction.type = TurnType.Suppressed ∧
              current_step.maneuver.instruction.direction_modifier ≠
                DirectionModifier.Straight) then
          setTypeAt steps step_index TurnType.Turn
        else if current_step.maneuver.instruction.type = TurnType.Merge then
          let steps := setModifierAt steps step_index
            (mirrorDirectionModifier
              (stepAt steps step_index).maneuver.instruction.direction_modifier)
          setTypeAt steps step_index TurnType.Turn
        else if current_step.maneuver.instruction.type = TurnType.NewName ∧
            current_step.maneuver.instruction.direction_modifier ≠
              DirectionModifier.Straight ∧
            (frontIntersection one_back_step).bearings.length > 2 then
          setTypeAt steps step_index TurnType.Turn
        else if current_step.maneuver.instruction.type = TurnType.UseLane ∧
            current_step.maneuver.instruction.direction_modifier ≠
              DirectionModifier.Straight ∧
            (frontIntersection one_back_step).bearings.length > 2 then
          setTypeAt steps step_index TurnType.Turn
        else steps
      let steps := steps.set two_back_index
        (elongate (stepAt steps two_back_index) one_back_step)
      invalidateAt steps one_back_index
    else steps
  else if one_back_step.distance ≤ MAX_COLLAPSE_DISTANCE ∧
      isCollapsableInstruction current_step.maneuver.instruction then
    -- very short segment after turn
    if compatible one_back_step current_step then
      let steps := steps.set one_back_index
        (elongate (stepAt steps one_back_index) (stepAt steps step_index))
      let steps :=
        if ((stepAt steps one_back_index).maneuver.instruction.type = TurnType.Continue ∨
            (stepAt steps one_back_index).maneuver.instruction.type =
              TurnType.Suppressed) ∧
            isNoticeableNameChange (stepAt steps two_back_index) current_step then
          setTypeAt steps one_back_index TurnType.Turn
        else if (stepAt steps one_back_index).maneuver.instruction.type =
              TurnType.Turn ∧
            ¬ isNoticeableNameChange (stepAt steps two_back_index) current_step then
          let steps := setTypeAt steps one_back_index TurnType.Continue
          if bearingsAreReversed
              (reverseBearing (getBearing true (stepAt steps one_back_index)))
              (getBearing false current_step) then
            let steps := setTypeAt steps one_back_index TurnType.Continue
            setModifierAt steps one_back_index DirectionModifier.UTurn
          else steps
        else if (stepAt steps one_back_index).maneuver.instruction.type =
              TurnType.Merge ∧
            current_step.maneuver.instruction.type ≠ TurnType.Suppressed then
          setModifierAt steps one_back_index
            (mirrorDirectionModifier
              (stepAt steps one_back_index).maneuver.instruction.direction_modifier)
        else steps
      let steps := steps.set one_back_index
        (forwardStepSignage (stepAt steps one_back_index) current_step)
      invalidateAt steps step_index
    else steps
  else if (one_back_step.distance ≤ MAX_COLLAPSE_DISTANCE ∨
        choiceless current_step one_back_step) ∧
      bearingsAreReversed
        (reverseBearing ((frontIntersection one_back_step).bearings.getD
          (frontIntersection one_back_step).inIndex 0))
        ((frontIntersection current_step).bearings.getD
          (frontIntersection current_step).outIndex 0) ∧
      compatible one_back_step current_step then
    -- Potential U-Turn
    let direct_u_turn :=
      ¬ isNoticeableNameChange (stepAt steps two_back_index) current_step
    let next_step_index := step_index + 1
    let continues_with_name_change :=
      next_step_index < steps.length ∧
      ((stepAt steps next_step_index).maneuver.instruction.type = TurnType.UseLane ∨
        isCollapsableInstruction (stepAt steps next_step_index).maneuver.instruction)
    let u_turn_with_name_change :=
      continues_with_name_change ∧
      ¬ isNoticeableNameChange (stepAt steps two_back_index)
        (stepAt steps next_step_index)
    if direct_u_turn ∨ u_turn_with_name_change then
      let steps := steps.set one_back_index
        (elongate (stepAt steps one_back_index) (stepAt steps step_index))
      let steps := invalidateAt steps step_index
      let steps :=
        if u_turn_with_name_change ∧
            compatible (stepAt steps one_back_index) (stepAt steps next_step_index) then
          let steps := steps.set one_back_index
            (elongate (stepAt steps one_back_index) (stepAt steps next_step_index))
          let steps := invalidateAt steps next_step_index
          steps.set one_back_index
            (forwardStepSignage (stepAt steps one_back_index)
              (stepAt steps two_back_index))
        else steps
      let steps :=
        if direct_u_turn then
          steps.set one_back_index
            (forwardStepSignage (stepAt steps one_back_index)
              (stepAt steps two_back_index))
        else steps
      let steps := setTypeAt steps one_back_index TurnType.Continue
      setModifierAt steps one_back_index DirectionModifier.UTurn
    else steps
  else steps

/-- isBasicNameChange of collapseTurns: a straight two-way name change
with a single intersection. -/
def isBasicNameChange (step : RouteStep) : Prop :=
  step.intersections.length = 1 ∧
  (frontIntersection step).bearings.length = 2 ∧
  step.maneuver.instruction.direction_modifier = DirectionModifier.Straight

instance (step : RouteStep) : Decidable (isBasicNameChange step) := by
  unfold isBasicNameChange; infer_instance

/-- Inner loop of the name-oscillation (A to A) fold: elongate the last
named step by the following steps and invalidate them. -/
def elongateRangeGo (target : Nat) : Nat → Nat → List RouteStep → List RouteStep
  | 0, _, steps => steps
  | fuel + 1, index, steps =>
    let steps := steps.set target (elongate (stepAt steps target) (stepAt steps index))
    let steps := invalidateAt steps index
    elongateRangeGo target fuel (index + 1) steps

/-- One iteration of the main loop of collapseTurns at a step index. -/
def collapseBody (steps : List RouteStep) (step_index : Nat) : List RouteStep :=
  let current_step := stepAt steps step_index
  let next_step_index := step_index + 1
  if current_step.maneuver.instruction.type = TurnType.NoTurn then steps
  else
    let one_back_index := getPreviousIndex steps step_index
    let one_back_step := stepAt steps one_back_index
    if ¬ hasManeuver one_back_step current_step then steps
    else if one_back_step.maneuver.instruction.type = TurnType.Sliproad then
      -- sliproads from motorways in urban areas
      if current_step.maneuver.instruction.type = TurnType.Suppressed ∧
          compatible one_back_step current_step then
        let steps := steps.set one_back_index
          (elongate (stepAt steps one_back_index) (stepAt steps step_index))
        invalidateAt steps step_index
      else if compatible one_back_step current_step then
        let steps :=
          if ¬ isNoticeableNameChange
              (stepAt steps (getPreviousIndex steps one_back_index))
              (stepAt steps step_index) then
            setTypeAt steps one_back_index TurnType.Continue
          else setTypeAt steps one_back_index TurnType.Turn
        let steps := steps.set one_back_index
          (elongate (stepAt steps one_back_index) (stepAt steps step_index))
        let steps := steps.set one_back_index
          (forwardStepSignage (stepAt steps one_back_index) (stepAt steps step_index))
        let steps := modifyStep steps one_back_index (fun s =>
          setFrontIntersectionLanes s
            (frontIntersection (stepAt steps step_index)).lanes
            (frontIntersection (stepAt steps step_index)).lane_description)
        let exit_intersection := frontIntersection (stepAt steps step_index)
        let exit_bearing := exit_intersection.bearings.getD exit_intersection.outIndex 0
        let entry_intersection := frontIntersection (stepAt steps one_back_index)
        let entry_bearing := entry_intersection.bearings.getD entry_intersection.inIndex 0
        let angle := turn_angle (reverseBearing entry_bearing) exit_bearing
        let steps := setModifierAt steps one_back_index (getTurnDirection angle)
        invalidateAt steps step_index
      else
        setTypeAt steps one_back_index TurnType.Turn
    else if isCollapsableInstruction current_step.maneuver.instruction ∧
        current_step.maneuver.instruction.type ≠ TurnType.Suppressed ∧
        ¬ isNoticeableNameChange
          (stepAt steps (getPreviousNameIndex steps step_index)) current_step ∧
        canCollapseAll steps (getPreviousNameIndex steps step_index + 1)
          next_step_index then
      -- name changes from A to A due to empty segments
      let last_available_name_index := getPreviousNameIndex steps step_index
      elongateRangeGo last_available_name_index
        (step_index + 1 - (last_available_name_index + 1))
        (last_available_name_index + 1) steps
    else if one_back_index > 0 ∧ compatible current_step one_back_step ∧
        ((isCollapsableInstruction current_step.maneuver.instruction ∧
          isCollapsableInstruction one_back_step.maneuver.instruction) ∨
          isStaggeredIntersection one_back_step current_step) then
      -- name oscillation
      let two_back_index := getPreviousIndex steps one_back_index
      if ¬ isNoticeableNameChange (stepAt steps two_back_index) current_step then
        if compatible one_back_step (stepAt steps two_back_index) then
          let steps := steps.set two_back_index
            (elongate (elongate (stepAt steps two_back_index)
              (stepAt steps one_back_index)) (stepAt steps step_index))
          let steps := invalidateAt steps one_back_index
          invalidateAt steps step_index
        else steps
      else if nameSegmentLength one_back_index steps < 100 ∧
          isBasicNameChange one_back_step ∧ isBasicNameChange current_step then
        if compatible (stepAt steps two_back_index) (stepAt steps one_back_index) then
          let steps := steps.set two_back_index
            (elongate (stepAt steps two_back_index) (stepAt steps one_back_index))
          let steps := invalidateAt steps one_back_index
          if nameSegmentLength step_index steps < 100 then
            let steps := steps.set two_back_index
              (elongate (stepAt steps two_back_index) (stepAt steps step_index))
            invalidateAt steps step_index
          else steps
        else steps
      else if step_index + 2 < steps.length ∧
          current_step.maneuver.instruction.type = TurnType.NewName ∧
          (stepAt steps next_step_index).maneuver.instruction.type =
            TurnType.NewName ∧
          ¬ isNoticeableNameChange one_back_step (stepAt steps next_step_index) then
        if compatible (stepAt steps step_index) (stepAt steps next_step_index) then
          let steps := steps.set one_back_index
            (elongate (stepAt steps one_back_index)
              (elongate (stepAt steps step_index) (stepAt steps next_step_index)))
          let steps := invalidateAt steps step_index
          invalidateAt steps next_step_index
        else steps
      else if choiceless current_step one_back_step ∨
          one_back_step.distance ≤ MAX_COLLAPSE_DISTANCE then
        collapseTurnAt steps two_back_index one_back_index step_index
      else steps
    else if one_back_index > 0 ∧
        (one_back_step.distance ≤ MAX_COLLAPSE_DISTANCE ∨
          choiceless current_step one_back_step) then
      collapseTurnAt steps (getPreviousIndex steps one_back_index) one_back_index
        step_index
    else steps

/-- Main loop of collapseTurns over step indices 1 .. size-2. -/
def collapseLoopGo : Nat → Nat → List RouteStep → List RouteStep
  | 0, _, steps => steps
  | fuel + 1, step_index, steps =>
    if step_index + 1 < steps.length then
      collapseLoopGo fuel (step_index + 1) (collapseBody steps step_index)
    else steps

/-- collapseTurns: collapse unnecessary sets of combined instructions into
single instructions, ending with the NO_TURN sweep. -/
def collapseTurns (steps : List RouteStep) : List RouteStep :=
  if steps.length ≤ 2 then steps
  else
    let steps := collapseLoopGo steps.length 1 steps
    let steps :=
      if 3 ≤ steps.length ∧
          (stepAt steps (getPreviousIndex steps (steps.length - 1))
            ).maneuver.instruction.type = TurnType.Sliproad then
        setTypeAt steps (getPreviousIndex steps (steps.length - 1)) TurnType.Turn
      else steps
    removeNoTurnInstructions steps

/-! ## Intersection building, UseLane collapsing and geometry resync,
translated from src/engine/guidance/post_processing.cpp -/

/-- Loop of buildIntersections: absorb suppressed instructions into the
previous emission point and demote EndOfRoad turns that pass no
intersections. -/
def buildIntersectionsGo :
    Nat → Nat → Nat → List RouteStep → List RouteStep
  | 0, _, _, steps => steps
  | fuel + 1, step_index, last_valid_instruction, steps =>
    if step_index < steps.length then
      let step := stepAt steps step_index
      let instruction := step.maneuver.instruction
      if instruction.type = TurnType.Suppressed then
        let steps := steps.set last_valid_instruction
          (elongate (stepAt steps last_valid_instruction) step)
        let steps := modifyStep steps step_index (fun s =>
          { s with maneuver :=
              { s.maneuver with instruction := TurnInstruction.NO_TURN } })
        buildIntersectionsGo fuel (step_index + 1) last_valid_instruction steps
      else if ¬ isSilent instruction then
        let steps :=
          if instruction.type = TurnType.EndOfRoad ∧
              (stepAt steps last_valid_instruction).intersections.length <
                MIN_END_OF_ROAD_INTERSECTIONS then
            setTypeAt steps step_index TurnType.Turn
          else steps
        buildIntersectionsGo fuel (step_index + 1) step_index steps
      else buildIntersectionsGo fuel (step_index + 1) last_valid_instruction steps
    else steps

/-- buildIntersections: emission points and passed-through intersections,
ending with the NO_TURN sweep. -/
def buildIntersections (steps : List RouteStep) : List RouteStep :=
  removeNoTurnInstructions (buildIntersectionsGo steps.length 0 0 steps)

/-- containsTag of collapseUseLane: bitmask intersection test. -/
def containsTag (mask tag : Nat) : Prop := mask &&& tag ≠ 0

instance (mask tag : Nat) : Decidable (containsTag mask tag) := by
  unfold containsTag; infer_instance

/-- Read the lane description counted from the right (reverse iterator
access of the source). -/
def laneFromRight (lane_description : List Nat) (k : Nat) : Nat :=
  lane_description.reverse.getD k 0

/-- canCollapeUseLane of collapseUseLane: the lane change only touches
through/none lanes on both flanks. -/
def canCollapeUseLane (lanes : LaneTupel) (lane_description : List Nat) : Prop :=
  ¬ (lanes.first_lane_from_the_right > 0 ∧
      containsTag (laneFromRight lane_description
        (lanes.first_lane_from_the_right - 1).toNat)
        (TurnLaneType.straight ||| TurnLaneType.none)) ∧
  ¬ (lanes.first_lane_from_the_right + lanes.lanes_in_turn <
        (lane_description.length : Int) ∧
      containsTag (laneFromRight lane_description
        (lanes.first_lane_from_the_right + lanes.lanes_in_turn).toNat)
        (TurnLaneType.straight ||| TurnLaneType.none))

instance (lanes : LaneTupel) (lane_description : List Nat) : Decidable (canCollapeUseLane lanes lane_description) := by
  unfold canCollapeUseLane; infer_instance

/-- Loop of collapseUseLane over step indices 1 .. size-1. -/
def collapseUseLaneGo : Nat → Nat → List RouteStep → List RouteStep
  | 0, _, steps => steps
  | fuel + 1, step_index, steps =>
    if step_index < steps.length then
      let step := stepAt steps step_index
      let steps :=
        if step.maneuver.instruction.type = TurnType.UseLane ∧
            canCollapeUseLane (frontIntersection step).lanes
              (frontIntersection step).lane_description then
          let previous := getPreviousIndex steps step_index
          let steps := steps.set previous
            (elongate (stepAt steps previous) (stepAt steps step_index))
          invalidateAt steps step_index
        else steps
      collapseUseLaneGo fuel (step_index + 1) steps
    else steps

/-- collapseUseLane: fold uninformative lane-change steps into their
predecessor, ending with the NO_TURN sweep. -/
def collapseUseLane (steps : List RouteStep) : List RouteStep :=
  removeNoTurnInstructions (collapseUseLaneGo steps.length 1 steps)

/-- The leg geometry data relevant to the resync stage, from
engine/guidance/leg_geometry.hpp as described by the data model (§4.8). -/
structure LegGeometry where
  segment_offsets : List Nat
  segment_distances : List Int
  deriving DecidableEq, Repr

/-- resyncGeometry: rebuild segment offsets and distances from the final
step list; one segment per step, with the data of the reached-target step
removed again. -/
def resyncGeometry (leg_geometry : LegGeometry) (steps : List RouteStep) :
    LegGeometry :=
  let offsets := 0 :: steps.map (fun step => step.geometry_end - 1)
  let distances := steps.map (fun step => step.distance)
  { leg_geometry with
    segment_offsets := offsets.dropLast
    segment_distances := distances.dropLast }

/-! ## Many-to-many matrix algorithm

Translated from include/engine/routing_algorithms/many_to_many.hpp.  The
query heap (§4.3) and the graph facade accessors are modelled from the
spec since their headers are not among the sources. -/

/-- INVALID_EDGE_WEIGHT, modelled from the spec (§4.5 Outputs: unreachable
cells carry the sentinel maximum, the largest signed 32-bit weight). -/
def INVALID_EDGE_WEIGHT : Int := 2147483647

/-- The sentinel maximum edge weight used to initialize the result table
(std::numeric_limits of EdgeWeight). -/
def EDGE_WEIGHT_MAX : Int := 2147483647

/-- Edge payload of the contracted graph, modelled from the spec (§3
Graph: target node, integer weight, direction flags); the weight member is
named distance as in the source EdgeData accesses. -/
structure EdgeData where
  target : Nat
  distance : Int
  forward : Bool
  backward : Bool
  deriving DecidableEq, Repr

/-- Adjacency-array graph view, modelled from the spec (§3 Graph: edges of
a node occupy a contiguous range; GetAdjacentEdgeRange enumerates them). -/
structure Graph where
  adjacency : List (List EdgeData)
  deriving DecidableEq, Repr

/-- The adjacent edge range of a node. -/
def Graph.adjOf (g : Graph) (node : Nat) : List EdgeData :=
  g.adjacency.getD node []

/-- Modelled from the spec: an addressable heap entry with per-node payload
(§4.3: dense inserted status, payload parent, binary heap for ordering);
removal by DeleteMin keeps the node inserted with its key. -/
structure HeapEntry where
  node : Nat
  key : Int
  parent : Nat
  removed : Bool
  deriving DecidableEq, Repr

/-- Modelled from the spec: the addressable query heap state (§4.3). -/
structure QueryHeap where
  entries : List HeapEntry
  deriving DecidableEq, Repr

/-- Modelled from the spec: Clear (§4.3). -/
def QueryHeap.clear : QueryHeap := ⟨[]⟩

/-- Modelled from the spec: WasInserted (§4.3); removal does not clear the
inserted status. -/
def QueryHeap.wasInserted (h : QueryHeap) (node : Nat) : Prop :=
  ∃ e ∈ h.entries, e.node = node

instance (h : QueryHeap) (node : Nat) : Decidable (h.wasInserted node) := by
  unfold QueryHeap.wasInserted; infer_instance

/-- Modelled from the spec: GetKey (§4.3); the key of an inserted node,
also after its removal from the heap. -/
def QueryHeap.getKey (h : QueryHeap) (node : Nat) : Int :=
  match h.entries.find? (fun e => e.node == node) with
  | some e => e.key
  | none => 0

/-- Modelled from the spec: Insert (§4.3). -/
def QueryHeap.insert (h : QueryHeap) (node : Nat) (key : Int) (parent : Nat) :
    QueryHeap :=
  ⟨h.entries ++ [⟨node, key, parent, false⟩]⟩

/-- Modelled from the spec: DecreaseKey combined with the parent payload
update preceding it at the call sites (§4.3). -/
def QueryHeap.decreaseKey (h : QueryHeap) (node : Nat) (key : Int)
    (parent : Nat) : QueryHeap :=
  ⟨h.entries.map (fun e =>
    if e.node = node then { e with key := key, parent := parent } else e)⟩

/-- Modelled from the spec: Empty (§4.3); no live entry remains. -/
def QueryHeap.isEmpty (h : QueryHeap) : Prop :=
  ∀ e ∈ h.entries, e.removed = true

instance (h : QueryHeap) : Decidable h.isEmpty := by
  unfold QueryHeap.isEmpty; infer_instance

/-- Modelled from the spec: one comparison step of the minimum-entry scan
(§4.3 DeleteMin); removed entries are skipped, a strictly smaller key
replaces the candidate. -/
def minLiveStep (acc : Option HeapEntry) (e : HeapEntry) : Option HeapEntry :=
  if e.removed then acc
  else
    match acc with
    | none => some e
    | some m => if e.key < m.key then some e else acc

/-- Modelled from the spec: the live entry of minimum key (§4.3 DeleteMin);
ties are broken towards the earliest inserted entry. -/
def QueryHeap.minLive (h : QueryHeap) : Option HeapEntry :=
  h.entries.foldl minLiveStep none

/-- Modelled from the spec: the node returned by DeleteMin (§4.3). -/
def QueryHeap.deleteMinNode (h : QueryHeap) : Nat :=
  match h.minLive with
  | some e => e.node
  | none => 0

/-- Modelled from the spec: mark a node as removed from the heap while
retaining its inserted status and key (§4.3 DeleteMin). -/
def QueryHeap.removeNode (h : QueryHeap) (node : Nat) : QueryHeap :=
  ⟨h.entries.map (fun e => if e.node = node then { e with removed := true } else e)⟩

/-- SegmentID as used by PhantomNode (util/typedefs.hpp is not among the
sources; modelled from the spec §3 PhantomEndpoint: segment id with
enabled flag). -/
structure SegmentID where
  id : Nat
  enabled : Bool
  deriving DecidableEq, Repr

/-- PhantomNode, translated from include/engine/phantom_node.hpp (query
fields). -/
structure PhantomNode where
  forward_segment_id : SegmentID
  reverse_segment_id : SegmentID
  name_id : Nat
  forward_weight : Int
  reverse_weight : Int
  forward_offset : Int
  reverse_offset : Int
  forward_packed_geometry_id : Nat
  reverse_packed_geometry_id : Nat
  component_id : Nat
  component_is_tiny : Bool
  location : Coordinate
  input_location : Coordinate
  fwd_segment_position : Nat
  forward_travel_mode : Nat
  backward_travel_mode : Nat
  deriving DecidableEq, Repr

/-- SPECIAL_SEGMENTID, modelled from the spec (sentinel id). -/
def SPECIAL_SEGMENTID : Nat := 2147483647

/-- The default-constructed PhantomNode from phantom_node.hpp: disabled
special segments, invalid weights, zero offsets. -/
def defaultPhantomNode : PhantomNode :=
  ⟨⟨SPECIAL_SEGMENTID, false⟩, ⟨SPECIAL_SEGMENTID, false⟩, 4294967295,
    INVALID_EDGE_WEIGHT, INVALID_EDGE_WEIGHT, 0, 0, SPECIAL_SEGMENTID,
    SPECIAL_SEGMENTID, 2147483647, false, ⟨0, 0⟩, ⟨0, 0⟩, 0, 0, 0⟩

/-- GetForwardWeightPlusOffset from phantom_node.hpp. -/
def PhantomNode.GetForwardWeightPlusOffset (p : PhantomNode) : Int :=
  p.forward_offset + p.forward_weight

/-- GetReverseWeightPlusOffset from phantom_node.hpp. -/
def PhantomNode.GetReverseWeightPlusOffset (p : PhantomNode) : Int :=
  p.reverse_offset + p.reverse_weight

/-- The bucket map of the backward sweeps (SearchSpaceWithBuckets): node
id to recorded (target column, weight) entries. -/
abbrev SearchSpaceWithBuckets : Type := List (Nat × List (Nat × Int))

/-- Append a NodeBucket for a node (search_space_with_buckets[node]
.emplace_back(column_idx, target_distance)). -/
def addBucket (buckets : SearchSpaceWithBuckets) (node : Nat) (column_idx : Nat)
    (distance : Int) : SearchSpaceWithBuckets :=
  if (buckets.find? (fun b => b.1 == node)).isSome then
    buckets.map (fun b => if b.1 = node then (b.1, b.2 ++ [(column_idx, distance)]) else b)
  else buckets ++ [(node, [(column_idx, distance)])]

/-- Look up the bucket list of a node (find on the bucket map). -/
def findBuckets (buckets : SearchSpaceWithBuckets) (node : Nat) :
    Option (List (Nat × Int)) :=
  (buckets.find? (fun b => b.1 == node)).map (fun b => b.2)

/-- Modelled from the spec: GetLoopWeight of the routing base (§4.5 Phase
2: "look up a loop weight for n (min of any self-loop retaining
direction)"), the minimum forward self-loop weight or
INVALID_EDGE_WEIGHT. -/
def getLoopWeight (g : Graph) (node : Nat) : Int :=
  (g.adjOf node).foldl
    (fun acc data =>
      if data.forward ∧ data.target = node then min acc data.distance else acc)
    INVALID_EDGE_WEIGHT

/-- RelaxOutgoingEdges of ManyToManyRouting: relax every edge of the node
that is traversable in the search direction. -/
def relaxOutgoingEdges (g : Graph) (forward_direction : Bool) (node : Nat)
    (distance : Int) (h : QueryHeap) : QueryHeap :=
  (g.adjOf node).foldl
    (fun h data =>
      if (if forward_direction then data.forward else data.backward) = true then
        let toNode := data.target
        let to_distance := distance + data.distance
        if ¬ h.wasInserted toNode then h.insert toNode to_distance node
        else if to_distance < h.getKey toNode then h.decreaseKey toNode to_distance node
        else h
      else h)
    h

/-- StallAtNode of ManyToManyRouting: skip relaxation when an edge
traversable in the reverse direction proves a strictly better key. -/
def stallAtNode (g : Graph) (forward_direction : Bool) (node : Nat)
    (distance : Int) (h : QueryHeap) : Prop :=
  ∃ data ∈ g.adjOf node,
    (if forward_direction then data.backward else data.forward) = true ∧
    h.wasInserted data.target ∧ h.getKey data.target + data.distance < distance

instance (g : Graph) (forward_direction : Bool) (node : Nat) (distance : Int) (h : QueryHeap) : Decidable (stallAtNode g forward_direction node distance h) := by
  unfold stallAtNode; infer_instance

/-- BackwardRoutingStep of ManyToManyRouting: settle the minimum node,
record it in the bucket map, then stall or relax. -/
def backwardRoutingStep (g : Graph) (column_idx : Nat) (h : QueryHeap)
    (buckets : SearchSpaceWithBuckets) : QueryHeap × SearchSpaceWithBuckets :=
  let node := h.deleteMinNode
  let h := h.removeNode node
  let target_distance := h.getKey node
  let buckets := addBucket buckets node column_idx target_distance
  if stallAtNode g false node target_distance h then (h, buckets)
  else (relaxOutgoingEdges g false node target_distance h, buckets)

/-- Table cell update of ForwardRoutingStep over one bucket list. -/
def forwardBucketFold (g : Graph) (row_idx number_of_targets : Nat) (node : Nat)
    (source_distance : Int) (bucket_list : List (Nat × Int))
    (result_table : List Int) : List Int :=
  bucket_list.foldl
    (fun result_table current_bucket =>
      let column_idx := current_bucket.1
      let target_distance := current_bucket.2
      let index := row_idx * number_of_targets + column_idx
      let current_distance := result_table.getD index 0
      let new_distance := source_distance + target_distance
      if new_distance < 0 then
        let loop_weight := getLoopWeight g node
        let new_distance_with_loop := new_distance + loop_weight
        if loop_weight ≠ INVALID_EDGE_WEIGHT ∧ 0 ≤ new_distance_with_loop then
          result_table.set index (min current_distance new_distance_with_loop)
        else result_table
      else if new_distance < current_distance then
        result_table.set index new_distance
      else result_table)
    result_table

/-- ForwardRoutingStep of ManyToManyRouting: settle the minimum node,
update the result table from its buckets, then stall or relax. -/
def forwardRoutingStep (g : Graph) (row_idx number_of_targets : Nat)
    (h : QueryHeap) (buckets : SearchSpaceWithBuckets)
    (result_table : List Int) : QueryHeap × List Int :=
  let node := h.deleteMinNode
  let h := h.removeNode node
  let source_distance := h.getKey node
  let result_table :=
    match findBuckets buckets node with
    | some bucket_list =>
      forwardBucketFold g row_idx number_of_targets node source_distance
        bucket_list result_table
    | none => result_table
  if stallAtNode g true node source_distance h then (h, result_table)
  else (relaxOutgoingEdges g true node source_distance h, result_table)

/-- Heap seeding of search_target_phantom: insert the enabled segments at
their weight-plus-offset. -/
def seedTargetHeap (phantom : PhantomNode) : QueryHeap :=
  let h := QueryHeap.clear
  let h :=
    if phantom.forward_segment_id.enabled then
      h.insert phantom.forward_segment_id.id phantom.GetForwardWeightPlusOffset
        phantom.forward_segment_id.id
    else h
  if phantom.reverse_segment_id.enabled then
    h.insert phantom.reverse_segment_id.id phantom.GetReverseWeightPlusOffset
      phantom.reverse_segment_id.id
  else h

/-- Heap seeding of search_source_phantom: insert the enabled segments at
the negated weight-plus-offset. -/
def seedSourceHeap (phantom : PhantomNode) : QueryHeap :=
  let h := QueryHeap.clear
  let h :=
    if phantom.forward_segment_id.enabled then
      h.insert phantom.forward_segment_id.id (-phantom.GetForwardWeightPlusOffset)
        phantom.forward_segment_id.id
    else h
  if phantom.reverse_segment_id.enabled then
    h.insert phantom.reverse_segment_id.id (-phantom.GetReverseWeightPlusOffset)
      phantom.reverse_segment_id.id
  else h

/-- Exploration loop of a backward search (while the heap is not empty,
run BackwardRoutingStep). -/
def backwardSweepGo (g : Graph) (column_idx : Nat) :
    Nat → QueryHeap → SearchSpaceWithBuckets → SearchSpaceWithBuckets
  | 0, _, buckets => buckets
  | fuel + 1, h, buckets =>
    if h.isEmpty then buckets
    else
      let (h, buckets) := backwardRoutingStep g column_idx h buckets
      backwardSweepGo g column_idx fuel h buckets

/-- Exploration loop of a forward search (while the heap is not empty, run
ForwardRoutingStep). -/
def forwardSweepGo (g : Graph) (row_idx number_of_targets : Nat)
    (buckets : SearchSpaceWithBuckets) :
    Nat → QueryHeap → List Int → List Int
  | 0, _, result_table => result_table
  | fuel + 1, h, result_table =>
    if h.isEmpty then result_table
    else
      let (h, result_table) :=
        forwardRoutingStep g row_idx number_of_targets h buckets result_table
      forwardSweepGo g row_idx number_of_targets buckets fuel h result_table

/-- Backward phase: one bucket-building sweep per target phantom, columns
counted up from the given index. -/
def backwardPhase (g : Graph) (fuel : Nat) :
    Nat → List PhantomNode → SearchSpaceWithBuckets → SearchSpaceWithBuckets
  | _, [], buckets => buckets
  | column_idx, phantom :: rest, buckets =>
    let buckets := backwardSweepGo g column_idx fuel (seedTargetHeap phantom) buckets
    backwardPhase g fuel (column_idx + 1) rest buckets

/-- Forward phase: one table-filling sweep per source phantom, rows
counted up from the given index. -/
def forwardPhase (g : Graph) (number_of_targets : Nat)
    (buckets : SearchSpaceWithBuckets) (fuel : Nat) :
    Nat → List PhantomNode → List Int → List Int
  | _, [], result_table => result_table
  | row_idx, phantom :: rest, result_table =>
    let result_table :=
      forwardSweepGo g row_idx number_of_targets buckets fuel
        (seedSourceHeap phantom) result_table
    forwardPhase g number_of_targets buckets fuel (row_idx + 1) rest result_table

/-- Resolve an index list over the phantom vector; an empty index list
selects every phantom. -/
def resolvePhantoms (phantom_nodes : List PhantomNode) (indices : List Nat) :
    List PhantomNode :=
  if indices.isEmpty then phantom_nodes
  else indices.map (fun index => phantom_nodes.getD index defaultPhantomNode)

/-- ManyToManyRouting::operator(): number_of_sources x number_of_targets
weight table via the bucketed backward sweeps and the forward sweeps.  The
fuel bounds the exploration loops, which the source runs to heap
exhaustion. -/
def manyToMany (g : Graph) (phantom_nodes : List PhantomNode)
    (source_indices target_indices : List Nat) (fuel : Nat) : List Int :=
  let number_of_sources :=
    if source_indices.isEmpty then phantom_nodes.length else source_indices.length
  let number_of_targets :=
    if target_indices.isEmpty then phantom_nodes.length else target_indices.length
  let number_of_entries := number_of_sources * number_of_targets
  let result_table := List.replicate number_of_entries EDGE_WEIGHT_MAX
  let buckets := backwardPhase g fuel 0 (resolvePhantoms phantom_nodes target_indices) []
  forwardPhase g number_of_targets buckets fuel 0
    (resolvePhantoms phantom_nodes source_indices) result_table

/-! ## Settle traces and reachability for the search claims -/

/-- Seed a cleared heap with a list of (node, key) pairs, each inserted
with itself as parent (the seeding pattern of both sweep set-ups). -/
def heapOfSeeds (seeds : List (Nat × Int)) : QueryHeap :=
  seeds.foldl (fun h s => h.insert s.1 s.2 s.1) QueryHeap.clear

/-- The sequence of (node, key) pairs settled — removed by DeleteMin — by
the exploration loop; per iteration this is exactly the
settle/stall/relax skeleton shared by BackwardRoutingStep (which records
the pair in the bucket map) and ForwardRoutingStep (which uses the pair
for the table update). -/
def searchSettleTrace (g : Graph) (forward_direction : Bool) :
    Nat → QueryHeap → List (Nat × Int)
  | 0, _ => []
  | fuel + 1, h =>
    if h.isEmpty then []
    else
      let node := h.deleteMinNode
      let h := h.removeNode node
      let distance := h.getKey node
      let h2 :=
        if stallAtNode g forward_direction node distance h then h
        else relaxOutgoingEdges g forward_direction node distance h
      (node, distance) :: searchSettleTrace g forward_direction fuel h2

/-- Reference Dijkstra over the same edge set, written from the claim: the
same settle/relax loop with the stall-on-demand rule removed. -/
def dijkstraSettleTrace (g : Graph) (forward_direction : Bool) :
    Nat → QueryHeap → List (Nat × Int)
  | 0, _ => []
  | fuel + 1, h =>
    if h.isEmpty then []
    else
      let node := h.deleteMinNode
      let h := h.removeNode node
      let distance := h.getKey node
      let h2 := relaxOutgoingEdges g forward_direction node distance h
      (node, distance) :: dijkstraSettleTrace g forward_direction fuel h2

/-- A node is reachable from the seed set at a given weight in the
direction-restricted view of the graph: either it is a seed at its seed
key, or it extends a reachable node by an edge traversable in the search
direction. -/
inductive Reaches (g : Graph) (forward_direction : Bool)
    (seeds : List (Nat × Int)) : Nat → Int → Prop where
  | seed : ∀ {n w}, (n, w) ∈ seeds → Reaches g forward_direction seeds n w
  | step : ∀ {u w} (e : EdgeData), Reaches g forward_direction seeds u w →
      e ∈ g.adjOf u → (if forward_direction then e.forward else e.backward) = true →
      Reaches g forward_direction seeds e.target (w + e.distance)

/-- The shortest-path weight from the seed set to a node in the
direction-restricted view: a reachable weight below every reachable
weight. -/
def IsShortestDist (g : Graph) (forward_direction : Bool)
    (seeds : List (Nat × Int)) (n : Nat) (d : Int) : Prop :=
  Reaches g forward_direction seeds n d ∧
  ∀ w, Reaches g forward_direction seeds n w → d ≤ w

/-! ## Static graph edge lookup (FindEdge)

SharedDataFacade::FindEdge delegates to StaticGraph::FindEdge
(util/static_graph.hpp), which is not among the sources; the adjacency
array and the scan are modelled from the spec (§3 Invariants: edges of a
node occupy [offset(n), offset(n+1)); FindEdge may be found by linear or
binary scan of the node's range) and checked against
unit_tests/util/static_graph.cpp. -/

/-- SPECIAL_EDGEID sentinel, modelled from the spec (the invalid edge
id). -/
def SPECIAL_EDGEID : Nat := 4294967295

/-- Modelled from the spec: the static adjacency-array graph; node_offsets
holds first_edge per node plus a sentinel entry, edge_targets the target
node per edge (§3 Graph, §6 CH file). -/
structure StaticGraph where
  node_offsets : List Nat
  edge_targets : List Nat
  deriving DecidableEq, Repr

/-- BeginEdges of the static graph. -/
def StaticGraph.BeginEdges (g : StaticGraph) (n : Nat) : Nat :=
  g.node_offsets.getD n 0

/-- EndEdges of the static graph (the following node's first edge). -/
def StaticGraph.EndEdges (g : StaticGraph) (n : Nat) : Nat :=
  g.node_offsets.getD (n + 1) 0

/-- GetTarget of the static graph. -/
def StaticGraph.GetTarget (g : StaticGraph) (e : Nat) : Nat :=
  g.edge_targets.getD e SPECIAL_EDGEID

/-- Modelled from the spec: scan of a node's edge range for the first edge
towards the goal node (§3 Invariants, FindEdge by linear scan of the
range). -/
def StaticGraph.findEdgeGo (g : StaticGraph) (v : Nat) : Nat → Nat → Nat
  | 0, _ => SPECIAL_EDGEID
  | fuel + 1, e =>
    if g.GetTarget e = v then e else g.findEdgeGo v fuel (e + 1)

/-- Modelled from the spec: FindEdge(u,v), the first edge of u's range
whose target is v, or the SPECIAL_EDGEID sentinel (§4.1, §8 invariant
1). -/
def StaticGraph.FindEdge (g : StaticGraph) (u v : Nat) : Nat :=
  g.findEdgeGo v (g.EndEdges u - g.BeginEdges u) (g.BeginEdges u)

/-- A well-formed static graph: monotone offsets within the edge array,
which itself is shorter than the edge-id sentinel. -/
def StaticGraph.WellFormed (g : StaticGraph) : Prop :=
  g.node_offsets.Sorted (· ≤ ·) ∧
  (∀ o ∈ g.node_offsets, o ≤ g.edge_targets.length) ∧
  g.edge_targets.length < SPECIAL_EDGEID

instance (g : StaticGraph) : Decidable g.WellFormed := by
  unfold StaticGraph.WellFormed List.Sorted; infer_instance

/-! ## Router CLI option handling (routed)

Translated from src/tools/routed.cpp: generateServerProgramOptions and the
exit-code mapping of main. -/

/-- Exit codes of the C standard library (EXIT_SUCCESS / EXIT_FAILURE). -/
def EXIT_SUCCESS : Int := 0
/-- EXIT_FAILURE of the C standard library. -/
def EXIT_FAILURE : Int := 1

/-- The init results of generateServerProgramOptions in routed.cpp. -/
inductive InitResult where
  | INIT_OK_START_ENGINE
  | INIT_OK_DO_NOT_START_ENGINE
  | INIT_FAILED
  deriving DecidableEq, Repr

/-- The command-line facts generateServerProgramOptions branches on:
whether parsing threw, whether --version / --help were given, the
--shared-memory flag and whether a base path was supplied (positionally
or via --base). -/
structure RoutedArgs where
  parse_error : Bool
  version : Bool
  help : Bool
  use_shared_memory : Bool
  has_base : Bool
  deriving DecidableEq, Repr

/-- generateServerProgramOptions from routed.cpp: parse failures fail;
--version and --help print and do not start the engine; exactly one of
base path and --shared-memory starts the engine; otherwise the usage is
printed and the engine is not started. -/
def generateServerProgramOptions (args : RoutedArgs) : InitResult :=
  if args.parse_error then InitResult.INIT_FAILED
  else if args.version then InitResult.INIT_OK_DO_NOT_START_ENGINE
  else if args.help then InitResult.INIT_OK_DO_NOT_START_ENGINE
  else if ¬ args.use_shared_memory ∧ args.has_base then
    InitResult.INIT_OK_START_ENGINE
  else if args.use_shared_memory ∧ ¬ args.has_base then
    InitResult.INIT_OK_START_ENGINE
  else InitResult.INIT_OK_DO_NOT_START_ENGINE

/-- Outcome of main in routed.cpp as far as option handling decides it:
either the process exits with a code, or it proceeds to start the
server. -/
inductive MainOutcome where
  | exitWith (code : Int)
  | continueStartup
  deriving DecidableEq, Repr

/-- The early exit-code mapping of main in routed.cpp:
INIT_OK_DO_NOT_START_ENGINE exits with EXIT_SUCCESS, INIT_FAILED with
EXIT_FAILURE, and INIT_OK_START_ENGINE proceeds to configuration
validation and server start. -/
def routedMainOutcome (args : RoutedArgs) : MainOutcome :=
  match generateServerProgramOptions args with
  | InitResult.INIT_OK_DO_NOT_START_ENGINE => MainOutcome.exitWith EXIT_SUCCESS
  | InitResult.INIT_FAILED => MainOutcome.exitWith EXIT_FAILURE
  | InitResult.INIT_OK_START_ENGINE => MainOutcome.continueStartup

/-! ## PhantomNode record layout (hints)

The PhantomNode field list is translated from
include/engine/phantom_node.hpp; the serialized hint record is modelled
from the spec (§6 Hint encoding: a PhantomEndpoint plus facade checksum).
Sizes follow the standard C++ layout rules for the LP64 ABI the source's
static_assert pins down. -/

/-- Align an offset upwards to a multiple of an alignment. -/
def alignTo (offset align : Nat) : Nat :=
  if align = 0 then offset else ((offset + align - 1) / align) * align

/-- Size of a struct from its (alignment, size) field list under the
standard layout rules: fields at aligned offsets, total size padded to
the maximal alignment. -/
def structLayoutSize (fields : List (Nat × Nat)) : Nat :=
  let maxAlign := fields.foldl (fun a f => max a f.1) 1
  let endOffset := fields.foldl (fun off f => alignTo off f.1 + f.2) 0
  alignTo endOffset maxAlign

/-- The (alignment, size) list of the PhantomNode members in declaration
order, from phantom_node.hpp: two SegmentID (u32 bitfields), name_id u32,
four int weights/offsets, two u32 packed-geometry ids, the 4-byte
ComponentType bitfield, two fixed-point Coordinates (two i32 each), a u16
segment position and two one-byte travel modes. -/
def phantomNodeFields : List (Nat × Nat) :=
  [(4, 4), (4, 4), (4, 4), (4, 4), (4, 4), (4, 4), (4, 4), (4, 4), (4, 4),
    (4, 4), (4, 8), (4, 8), (2, 2), (1, 1), (1, 1)]

/-- The size of the PhantomNode record. -/
def phantomNodeSize : Nat := structLayoutSize phantomNodeFields

/-- Modelled from the spec: the serialized hint record is a PhantomNode
followed by the u32 facade checksum (§6 Hint encoding). -/
def hintRecordSize : Nat :=
  structLayoutSize (phantomNodeFields ++ [(4, 4)])

/-! ## Concrete example data used by witnesses and counterexamples -/

/-- Build an intersection at the origin from bearings, entry flags and
in/out indices. -/
def mkIntersection (bearings : List Int) (entry : List Bool) (i o : Nat) :
    Intersection :=
  ⟨⟨0, 0⟩, bearings, entry, i, o, ⟨0, 0⟩, []⟩

/-- Build a route step from name data, instruction, waypoint type,
distance and geometry interval. -/
def mkStep (nid : Nat) (nm : String) (ty : TurnType) (dm : DirectionModifier)
    (wp : WaypointType) (dist : Int) (gb ge : Nat)
    (ints : List Intersection) : RouteStep :=
  ⟨nid, nm, "", "", "", "", "", dist, dist, 1, ⟨⟨ty, dm⟩, ⟨0, 0⟩, 0, 0, 0, wp⟩,
    gb, ge, ints⟩

/-- A depart step used by the concrete examples. -/
def departStep (nm : String) (dist : Int) (gb ge : Nat) : RouteStep :=
  mkStep 1 nm TurnType.NoTurn DirectionModifier.UTurn WaypointType.Depart dist
    gb ge [mkIntersection [90] [true] Intersection.NO_INDEX 0]

/-- An arrive step used by the concrete examples. -/
def arriveStep (nm : String) (gb ge : Nat) : RouteStep :=
  mkStep 6 nm TurnType.NoTurn DirectionModifier.UTurn WaypointType.Arrive 0
    gb ge [mkIntersection [270] [true] 0 Intersection.NO_INDEX]

/-! ## Claim C10: postProcess and collapseTurns on minimal step lists -/

/-- C10: a steps list of exactly two steps (depart and arrive only) is
returned unchanged by the roundabout-accumulation pass (postProcess), and
the collapse pass (collapseTurns) returns any list of at most two steps
unchanged. -/
theorem postProcess_collapseTurns_short_unchanged (steps : List RouteStep) :
    (steps.length = 2 → postProcess steps = steps) ∧
    (steps.length ≤ 2 → collapseTurns steps = steps) := by
  constructor
  · intro h
    unfold postProcess
    rw [if_pos h]
  · intro h
    unfold collapseTurns
    rw [if_pos h]

/-- The two-step leg used as the C10 witness input. -/
def c10TwoSteps : List RouteStep := [departStep "A" 10 0 2, arriveStep "B" 1 2]

/-- Witness for C10 at a concrete two-step leg. -/
theorem postProcess_collapseTurns_short_unchanged_witness :
    postProcess c10TwoSteps = c10TwoSteps ∧ collapseTurns c10TwoSteps = c10TwoSteps :=
  ⟨(postProcess_collapseTurns_short_unchanged c10TwoSteps).1 rfl,
    (postProcess_collapseTurns_short_unchanged c10TwoSteps).2 (by decide)⟩

/-! ## Claim C7: the PhantomNode record and the hint record sizes -/

/-- C7 (amended): the serialized PhantomNode record occupies exactly 60
bytes; the hint record — the PhantomNode together with the u32 facade
checksum — occupies 64 bytes before base-64 encoding. -/
theorem phantomNode_and_hint_record_sizes :
    phantomNodeSize = 60 ∧ hintRecordSize = 64 := by decide

/-- C7 counterexample: the hint record (PhantomNode plus checksum) does
not occupy 60 bytes. -/
theorem hintRecord_size_not_sixty : hintRecordSize ≠ 60 := by decide

/-! ## Claim C6: router CLI usage errors -/

/-- C6 (amended): when neither a base path nor --shared-memory is given,
or both are, the router prints the usage and terminates with exit code 0
(EXIT_SUCCESS) without starting the engine — not with the documented
usage-error code 1. -/
theorem routed_usage_conflict_exits_success (args : RoutedArgs)
    (hp : args.parse_error = false) (hv : args.version = false)
    (hh : args.help = false) (hb : args.use_shared_memory = args.has_base) :
    routedMainOutcome args = MainOutcome.exitWith EXIT_SUCCESS := by
  obtain ⟨p, v, hlp, s, b⟩ := args
  simp only at hp hv hh hb
  subst hp hv hh hb
  cases s <;> decide

/-- Witness for C6 at the concrete invocation with neither base path nor
--shared-memory. -/
theorem routed_usage_conflict_exits_success_witness :
    routedMainOutcome ⟨false, false, false, false, false⟩ =
      MainOutcome.exitWith EXIT_SUCCESS :=
  routed_usage_conflict_exits_success ⟨false, false, false, false, false⟩
    rfl rfl rfl rfl

/-- C6 counterexample: with neither base nor --shared-memory (and likewise
with both) the process exits with code 0, not with the usage-error code
1. -/
theorem routed_usage_conflict_counterexample :
    routedMainOutcome ⟨false, false, false, false, false⟩ =
      MainOutcome.exitWith 0 ∧
    routedMainOutcome ⟨false, false, false, true, true⟩ =
      MainOutcome.exitWith 0 ∧
    MainOutcome.exitWith (0 : Int) ≠ MainOutcome.exitWith (1 : Int) := by decide

/-! ## Claim C4: FindEdge over the static adjacency array -/

/-- Range scan lemma for findEdgeGo: either no edge of the scanned range
hits the goal and the sentinel is returned, or the result is the first
hit inside the range. -/
theorem findEdgeGo_spec (g : StaticGraph) (v : Nat) :
    ∀ fuel e, (g.findEdgeGo v fuel e = SPECIAL_EDGEID ∧
        ∀ k, e ≤ k → k < e + fuel → g.GetTarget k ≠ v) ∨
      (e ≤ g.findEdgeGo v fuel e ∧ g.findEdgeGo v fuel e < e + fuel ∧
        g.GetTarget (g.findEdgeGo v fuel e) = v) := by
  intro fuel
  induction fuel with
  | zero =>
    intro e
    left
    exact ⟨rfl, by omega⟩
  | succ n ih =>
    intro e
    unfold StaticGraph.findEdgeGo
    by_cases h : g.GetTarget e = v
    · right
      rw [if_pos h]
      exact ⟨Nat.le_refl e, by omega, h⟩
    · rw [if_neg h]
      rcases ih (e + 1) with ⟨hs, hnone⟩ | ⟨h1, h2, h3⟩
      · left
        refine ⟨hs, ?_⟩
        intro k hk1 hk2
        rcases Nat.eq_or_lt_of_le hk1 with rfl | hlt
        · exact h
        · exact hnone k hlt (by omega)
      · right
        exact ⟨by omega, by omega, h3⟩

/-- C4: on a well-formed static graph, FindEdge(u,v) returns either an
edge id e with GetTarget(e) = v and BeginEdges(u) ≤ e < EndEdges(u), or
the SPECIAL_EDGEID sentinel when no edge from u to v exists. -/
theorem findEdge_spec (g : StaticGraph) (u v : Nat) (hwf : g.WellFormed) :
    (g.FindEdge u v = SPECIAL_EDGEID ∧
      ∀ e, g.BeginEdges u ≤ e → e < g.EndEdges u → g.GetTarget e ≠ v) ∨
    (g.BeginEdges u ≤ g.FindEdge u v ∧ g.FindEdge u v < g.EndEdges u ∧
      g.GetTarget (g.FindEdge u v) = v) := by
  have h := findEdgeGo_spec g v (g.EndEdges u - g.BeginEdges u) (g.BeginEdges u)
  unfold StaticGraph.FindEdge
  rcases h with ⟨hs, hnone⟩ | ⟨h1, h2, h3⟩
  · left
    refine ⟨hs, ?_⟩
    intro e he1 he2
    exact hnone e he1 (by omega)
  · right
    exact ⟨h1, by omega, h3⟩

/-- The static graph of the find_test unit test (five nodes; edges
0→1, 3→0, 3→0, 3→4, 4→3). -/
def c4TestGraph : StaticGraph := ⟨[0, 1, 1, 1, 4, 5], [1, 0, 0, 4, 3]⟩

/-- Witness for C4: the test graph is well-formed and the lookup 1→0 of
the unit test satisfies the FindEdge contract. -/
theorem findEdge_spec_witness :
    c4TestGraph.WellFormed ∧
    ((c4TestGraph.FindEdge 1 0 = SPECIAL_EDGEID ∧
        ∀ e, c4TestGraph.BeginEdges 1 ≤ e → e < c4TestGraph.EndEdges 1 →
          c4TestGraph.GetTarget e ≠ 0) ∨
      (c4TestGraph.BeginEdges 1 ≤ c4TestGraph.FindEdge 1 0 ∧
        c4TestGraph.FindEdge 1 0 < c4TestGraph.EndEdges 1 ∧
        c4TestGraph.GetTarget (c4TestGraph.FindEdge 1 0) = 0)) :=
  ⟨by decide, findEdge_spec c4TestGraph 1 0 (by decide)⟩

/-! ## Claim C5: geometry resync offsets -/

/-- A three-step leg (depart, one turn, arrive) with contiguous step
geometry, used against the resync claim. -/
def c5Steps : List RouteStep :=
  [departStep "A" 10 0 2,
    mkStep 2 "B" TurnType.Turn DirectionModifier.Right WaypointType.None 20 1 3
      [mkIntersection [0, 90] [true, true] 0 1],
    arriveStep "C" 2 3]

/-- C5 counterexample: after resync of a three-step leg the offset count
minus one is 2, not the step count 3, and the first offset difference is
1, not steps[0].geometry_end − steps[0].geometry_begin = 2. -/
theorem resyncGeometry_claim_counterexample :
    (resyncGeometry ⟨[], []⟩ c5Steps).segment_offsets.length - 1 ≠
      c5Steps.length ∧
    ¬ ((resyncGeometry ⟨[], []⟩ c5Steps).segment_offsets.getD 1 0 -
        (resyncGeometry ⟨[], []⟩ c5Steps).segment_offsets.getD 0 0 =
        (stepAt c5Steps 0).geometry_end - (stepAt c5Steps 0).geometry_begin) := by
  decide

/-- C5 (amended): resync produces exactly one offset per step (the final
arrive step contributes no interval of its own): the offset list has
length |steps|, starts at 0, and its entry i+1 is steps[i].geometry_end −
1; hence when consecutive steps tile the geometry (each step starts at the
predecessor's last location) each offset difference is
steps[i].geometry_end − steps[i].geometry_begin − 1. -/
theorem resyncGeometry_offsets_spec (lg : LegGeometry) (steps : List RouteStep)
    (h0 : steps ≠ [] → (stepAt steps 0).geometry_begin = 0)
    (ht : ∀ j, j + 1 < steps.length →
      (stepAt steps (j + 1)).geometry_begin = (stepAt steps j).geometry_end - 1) :
    (resyncGeometry lg steps).segment_offsets.length = steps.length ∧
    (steps ≠ [] → (resyncGeometry lg steps).segment_offsets.getD 0 0 = 0) ∧
    (∀ i, i + 1 < steps.length →
      (resyncGeometry lg steps).segment_offsets.getD (i + 1) 0 =
        (stepAt steps i).geometry_end - 1) ∧
    (∀ i, i + 1 < steps.length →
      (resyncGeometry lg steps).segment_offsets.getD (i + 1) 0 -
        (resyncGeometry lg steps).segment_offsets.getD i 0 =
        (stepAt steps i).geometry_end - (stepAt steps i).geometry_begin - 1) := by
  have hoff : (resyncGeometry lg steps).segment_offsets =
      (0 :: steps.map (fun s => s.geometry_end - 1)).dropLast := rfl
  have hdlen : ((0 :: steps.map (fun s => s.geometry_end - 1)).dropLast).length =
      steps.length := by
    rw [List.length_dropLast]
    simp
  have hlen : (resyncGeometry lg steps).segment_offsets.length = steps.length := by
    rw [hoff, hdlen]
  have hget : ∀ i, i < steps.length →
      (resyncGeometry lg steps).segment_offsets.getD i 0 =
        (0 :: steps.map (fun s => s.geometry_end - 1)).getD i 0 := by
    intro i hi
    have hi2 : i < ((0 :: steps.map (fun s => s.geometry_end - 1)).dropLast).length := by
      rw [hdlen]; exact hi
    have hi3 : i < (0 :: steps.map (fun s => s.geometry_end - 1)).length := by
      simp only [List.length_cons, List.length_map]
      omega
    rw [hoff, List.getD_eq_getElem _ _ hi2, List.getD_eq_getElem _ _ hi3]
    exact List.getElem_dropLast _ _ hi2
  have hsucc : ∀ i, i + 1 < steps.length →
      (resyncGeometry lg steps).segment_offsets.getD (i + 1) 0 =
        (stepAt steps i).geometry_end - 1 := by
    intro i hi
    rw [hget (i + 1) hi]
    have him : i < (steps.map (fun s => s.geometry_end - 1)).length := by
      simp only [List.length_map]
      omega
    rw [List.getD_cons_succ, List.getD_eq_getElem _ _ him, List.getElem_map]
    unfold stepAt
    rw [List.getD_eq_getElem _ _ (show i < steps.length by omega)]
  have hzero : steps ≠ [] →
      (resyncGeometry lg steps).segment_offsets.getD 0 0 = 0 := by
    intro hne
    rw [hget 0 (List.length_pos.mpr hne)]
    rfl
  refine ⟨hlen, hzero, hsucc, ?_⟩
  intro i hi
  match i with
  | 0 =>
    have hne : steps ≠ [] := by
      intro h
      rw [h] at hi
      simp at hi
    rw [hsucc 0 hi, hzero hne, h0 hne]
    omega
  | j + 1 =>
    have hj : j + 1 < steps.length := by omega
    rw [hsucc (j + 1) hi, hsucc j hj, ht j hj]
    omega

/-- Witness for C5 at the concrete three-step leg. -/
theorem resyncGeometry_offsets_spec_witness :
    (resyncGeometry ⟨[], []⟩ c5Steps).segment_offsets.length = c5Steps.length ∧
    (c5Steps ≠ [] → (resyncGeometry ⟨[], []⟩ c5Steps).segment_offsets.getD 0 0 = 0) ∧
    (∀ i, i + 1 < c5Steps.length →
      (resyncGeometry ⟨[], []⟩ c5Steps).segment_offsets.getD (i + 1) 0 =
        (stepAt c5Steps i).geometry_end - 1) ∧
    (∀ i, i + 1 < c5Steps.length →
      (resyncGeometry ⟨[], []⟩ c5Steps).segment_offsets.getD (i + 1) 0 -
        (resyncGeometry ⟨[], []⟩ c5Steps).segment_offsets.getD i 0 =
        (stepAt c5Steps i).geometry_end - (stepAt c5Steps i).geometry_begin - 1) :=
  resyncGeometry_offsets_spec ⟨[], []⟩ c5Steps (fun _ => by decide)
    (by
      intro j hj
      have h3 : c5Steps.length = 3 := rfl
      rw [h3] at hj
      have hj2 : j < 2 := by omega
      interval_cases j <;> decide)

/-! ## Claim C3: idempotence of the collapse stage -/

theorem length_modifyStep (steps : List RouteStep) (i : Nat) (f : RouteStep → RouteStep) :
    (modifyStep steps i f).length = steps.length := by
  unfold modifyStep
  exact List.length_set steps i _

theorem length_invalidateAt (steps : List RouteStep) (i : Nat) :
    (invalidateAt steps i).length = steps.length := length_modifyStep steps i _

theorem length_setTypeAt (steps : List RouteStep) (i : Nat) (t : TurnType) :
    (setTypeAt steps i t).length = steps.length := length_modifyStep steps i _

theorem length_setModifierAt (steps : List RouteStep) (i : Nat) (m : DirectionModifier) :
    (setModifierAt steps i m).length = steps.length := length_modifyStep steps i _

theorem length_setExitAt (steps : List RouteStep) (i : Nat) (e : Nat) :
    (setExitAt steps i e).length = steps.length := length_modifyStep steps i _

theorem length_collapseTurnAt (steps : List RouteStep) (t o s : Nat) :
    (collapseTurnAt steps t o s).length = steps.length := by
  unfold collapseTurnAt
  repeat'
    first
      | rfl
      | (simp only [modifyStep, invalidateAt, setTypeAt, setModifierAt,
          List.length_set])
      | split

theorem length_elongateRangeGo (target : Nat) :
    ∀ fuel index steps, (elongateRangeGo target fuel index steps).length = steps.length := by
  intro fuel
  induction fuel with
  | zero => intro index steps; rfl
  | succ n ih =>
    intro index steps
    unfold elongateRangeGo
    rw [ih]
    simp [invalidateAt, modifyStep, List.length_set]

theorem length_collapseBody (steps : List RouteStep) (i : Nat) :
    (collapseBody steps i).length = steps.length := by
  unfold collapseBody
  repeat'
    first
      | rfl
      | (simp only [modifyStep, invalidateAt, setTypeAt, setModifierAt,
          List.length_set, length_collapseTurnAt, length_elongateRangeGo])
      | split

theorem length_collapseLoopGo :
    ∀ fuel i steps, (collapseLoopGo fuel i steps).length = steps.length := by
  intro fuel
  induction fuel with
  | zero => intro i steps; rfl
  | succ n ih =>
    intro i steps
    unfold collapseLoopGo
    split
    · rw [ih, length_collapseBody]
    · rfl

theorem length_removeNoTurnInstructions_le (steps : List RouteStep) :
    (removeNoTurnInstructions steps).length ≤ steps.length :=
  List.length_filter_le _ _

theorem length_collapseTurns_le (steps : List RouteStep) :
    (collapseTurns steps).length ≤ steps.length := by
  unfold collapseTurns
  split
  · exact Nat.le_refl _
  · refine Nat.le_trans (length_removeNoTurnInstructions_le _) ?_
    split
    · rw [length_setTypeAt, length_collapseLoopGo]
    · rw [length_collapseLoopGo]

/-- A six-step leg (depart; a right turn; a name change; a sliproad; a
name change back to the first road's name; arrive).  The first collapse
pass folds the trailing name change into the sliproad — promoting it to a
Turn with the name of the first road — at an index the left-to-right scan
has already passed, so only a second pass can collapse the newly created
oscillation. -/
def c3Steps : List RouteStep :=
  [departStep "Start" 10 0 2,
    mkStep 2 "Main" TurnType.Turn DirectionModifier.Right WaypointType.None 100 1 3
      [mkIntersection [0, 90, 180] [true, true, true] 0 1],
    mkStep 3 "Side" TurnType.NewName DirectionModifier.Straight WaypointType.None 50 2 4
      [mkIntersection [0, 90] [true, true] 0 1],
    mkStep 4 "Slip" TurnType.Sliproad DirectionModifier.Straight WaypointType.None 50 3 5
      [mkIntersection [0, 90] [true, true] 0 1],
    mkStep 5 "Main" TurnType.NewName DirectionModifier.Straight WaypointType.None 40 4 6
      [mkIntersection [0, 180] [true, true] 0 1],
    arriveStep "End" 5 6]

/-- C3 counterexample: running collapseTurns a second time on its own
output changes the output again (the first run leaves five steps, the
second collapses them to three). -/
theorem collapseTurns_not_idempotent :
    collapseTurns (collapseTurns c3Steps) ≠ collapseTurns c3Steps := by
  intro h
  have hlen := congrArg List.length h
  revert hlen
  decide

/-- C3 (amended): the collapse stage is not idempotent — a second
application may collapse further steps — but each application never
lengthens the list, so the second output is never longer than the
first. -/
theorem collapseTurns_never_lengthens (steps : List RouteStep) :
    (collapseTurns steps).length ≤ steps.length ∧
    (collapseTurns (collapseTurns steps)).length ≤ (collapseTurns steps).length :=
  ⟨length_collapseTurns_le steps, length_collapseTurns_le _⟩

/-! ## Claim C9: what the step-removing passes remove and preserve -/

theorem length_buildIntersectionsGo :
    ∀ fuel i lv steps, (buildIntersectionsGo fuel i lv steps).length = steps.length := by
  intro fuel
  induction fuel with
  | zero => intro i lv steps; rfl
  | succ n ih =>
    intro i lv steps
    unfold buildIntersectionsGo
    repeat'
      first
        | rfl
        | (rw [ih])
        | (simp only [modifyStep, setTypeAt, List.length_set])
        | split

theorem length_collapseUseLaneGo :
    ∀ fuel i steps, (collapseUseLaneGo fuel i steps).length = steps.length := by
  intro fuel
  induction fuel with
  | zero => intro i steps; rfl
  | succ n ih =>
    intro i steps
    unfold collapseUseLaneGo
    repeat'
      first
        | rfl
        | (rw [ih])
        | (simp only [modifyStep, invalidateAt, List.length_set])
        | split

/-- An uninformative UseLane intersection: the turn uses the only lane,
which is a straight lane, with no lanes on either flank. -/
def c9UseLaneIntersection : Intersection :=
  ⟨⟨0, 0⟩, [0, 180], [true, true], 0, 1, ⟨1, 0⟩, [TurnLaneType.straight]⟩

/-- A three-step leg whose middle step is an uninformative UseLane step:
collapseUseLane folds it into the depart step and removes it, although its
instruction is UseLane, not NO_TURN. -/
def c9Steps : List RouteStep :=
  [departStep "A" 10 0 2,
    mkStep 2 "A" TurnType.UseLane DirectionModifier.Straight WaypointType.None 20 1 3
      [c9UseLaneIntersection],
    arriveStep "B" 2 3]

/-- C9 counterexample: collapseUseLane removes a step whose instruction is
UseLane — not NO_TURN with waypoint None — so the passes do not remove
exactly the steps that are NO_TURN/None in their input. -/
theorem collapseUseLane_removes_non_noturn_step :
    (stepAt c9Steps 1).maneuver.instruction.type = TurnType.UseLane ∧
    ¬ isInvalidatedStep (stepAt c9Steps 1) ∧
    stepAt c9Steps 1 ∈ c9Steps ∧
    stepAt c9Steps 1 ∉ collapseUseLane c9Steps := by decide

/-- C9 (amended): all removal happens in the final NO_TURN sweep, which
removes exactly the steps whose instruction is NO_TURN and waypoint type
None at sweep time: the sweep itself is that exact filter; collapseTurns
(on more than two steps), buildIntersections and collapseUseLane each
factor as a length-preserving rewriting — which may first invalidate
steps, rewriting them to NO_TURN/None — followed by the sweep; and the
sweep preserves the endpoints: on a list whose first and last steps are
not invalidated (the Depart and Arrive waypoints), it keeps the first step
first and the last step last, with at least two steps remaining. -/
theorem passes_remove_exactly_swept_steps :
    (∀ steps : List RouteStep, ∀ s,
      s ∈ removeNoTurnInstructions steps ↔ s ∈ steps ∧ ¬ isInvalidatedStep s) ∧
    (∀ steps : List RouteStep, 2 < steps.length → ∃ rewritten : List RouteStep,
      rewritten.length = steps.length ∧
      collapseTurns steps = removeNoTurnInstructions rewritten) ∧
    (∀ steps : List RouteStep, ∃ rewritten : List RouteStep,
      rewritten.length = steps.length ∧
      buildIntersections steps = removeNoTurnInstructions rewritten) ∧
    (∀ steps : List RouteStep, ∃ rewritten : List RouteStep,
      rewritten.length = steps.length ∧
      collapseUseLane steps = removeNoTurnInstructions rewritten) ∧
    (∀ (a b : RouteStep) (middle : List RouteStep),
      ¬ isInvalidatedStep a → ¬ isInvalidatedStep b →
      removeNoTurnInstructions (a :: middle ++ [b]) =
        a :: removeNoTurnInstructions middle ++ [b] ∧
      2 ≤ (removeNoTurnInstructions (a :: middle ++ [b])).length) := by
  refine ⟨?_, ?_, ?_, ?_, ?_⟩
  · intro steps s
    unfold removeNoTurnInstructions
    simp [List.mem_filter]
  · intro steps h
    unfold collapseTurns
    rw [if_neg (by omega)]
    refine ⟨_, ?_, rfl⟩
    split
    · rw [length_setTypeAt, length_collapseLoopGo]
    · rw [length_collapseLoopGo]
  · intro steps
    exact ⟨_, length_buildIntersectionsGo _ _ _ _, rfl⟩
  · intro steps
    exact ⟨_, length_collapseUseLaneGo _ _ _, rfl⟩
  · intro a b middle ha hb
    have heq : removeNoTurnInstructions (a :: middle ++ [b]) =
        a :: removeNoTurnInstructions middle ++ [b] := by
      unfold removeNoTurnInstructions
      rw [List.cons_append, List.filter_cons_of_pos (by simpa using ha),
        List.filter_append]
      simp [hb]
    refine ⟨heq, ?_⟩
    rw [heq]
    simp

/-- Witness for C9 at a concrete leg: the sweep over (depart, invalidated
step, arrive) keeps the endpoints and at least two steps. -/
theorem passes_remove_exactly_swept_steps_witness :
    removeNoTurnInstructions
        (departStep "A" 10 0 2 :: [getInvalidRouteStep] ++ [arriveStep "B" 2 3]) =
      departStep "A" 10 0 2 ::
        removeNoTurnInstructions [getInvalidRouteStep] ++ [arriveStep "B" 2 3] ∧
    2 ≤ (removeNoTurnInstructions
        (departStep "A" 10 0 2 :: [getInvalidRouteStep] ++ [arriveStep "B" 2 3])).length :=
  passes_remove_exactly_swept_steps.2.2.2.2 (departStep "A" 10 0 2)
    (arriveStep "B" 2 3) [getInvalidRouteStep] (by decide) (by decide)

/-! ## Claim C2: forward sweep seeding and table update rule -/

theorem list_set_getD_self (l : List Int) : ∀ i, l.set i (l.getD i 0) = l := by
  induction l with
  | nil => intro i; rfl
  | cons a rest ih =>
    intro i
    match i with
    | 0 => rfl
    | j + 1 =>
      show a :: rest.set j (rest.getD j 0) = a :: rest
      rw [ih j]

/-- The seeds of a source phantom as the claim words them: each enabled
segment at key equal to minus its weight-plus-offset. -/
def specSourceSeeds (p : PhantomNode) : List (Nat × Int) :=
  (if p.forward_segment_id.enabled then
    [(p.forward_segment_id.id, -(p.forward_weight + p.forward_offset))]
  else []) ++
  (if p.reverse_segment_id.enabled then
    [(p.reverse_segment_id.id, -(p.reverse_weight + p.reverse_offset))]
  else [])

/-- The table-cell update as the claim words it: the cell becomes
min(current, key+w); when key+w < 0 the cell instead becomes
min(current, key+w+loop) — and only when the loop exists (weight not
INVALID_EDGE_WEIGHT) and key+w+loop ≥ 0, the cell being left unchanged
otherwise. -/
def specCellUpdate (current key w loop : Int) : Int :=
  if key + w < 0 then
    if loop ≠ INVALID_EDGE_WEIGHT ∧ 0 ≤ key + w + loop then
      min current (key + w + loop)
    else current
  else min current (key + w)

/-- The whole-table effect of one settled node per the claim: every bucket
(c, w) stored at the node updates the cell (row, c) by specCellUpdate. -/
def specTableUpdate (g : Graph) (row_idx number_of_targets node : Nat)
    (key : Int) (buckets : SearchSpaceWithBuckets) (table : List Int) :
    List Int :=
  match findBuckets buckets node with
  | none => table
  | some bucket_list =>
    bucket_list.foldl
      (fun table b =>
        let index := row_idx * number_of_targets + b.1
        table.set index (specCellUpdate (table.getD index 0) key b.2
          (getLoopWeight g node)))
      table

theorem forwardBucketFold_spec (g : Graph) (r M node : Nat) (key : Int) :
    ∀ (bl : List (Nat × Int)) (table : List Int),
      forwardBucketFold g r M node key bl table =
        bl.foldl
          (fun table b =>
            table.set (r * M + b.1) (specCellUpdate
              (table.getD (r * M + b.1) 0) key b.2 (getLoopWeight g node)))
          table := by
  intro bl
  induction bl with
  | nil => intro table; rfl
  | cons b rest ih =>
    intro table
    have h1 : forwardBucketFold g r M node key (b :: rest) table =
        forwardBucketFold g r M node key rest
          (if key + b.2 < 0 then
            if getLoopWeight g node ≠ INVALID_EDGE_WEIGHT ∧
                0 ≤ key + b.2 + getLoopWeight g node then
              table.set (r * M + b.1)
                (min (table.getD (r * M + b.1) 0) (key + b.2 + getLoopWeight g node))
            else table
          else if key + b.2 < table.getD (r * M + b.1) 0 then
            table.set (r * M + b.1) (key + b.2)
          else table) := rfl
    have h2 : (if key + b.2 < 0 then
            if getLoopWeight g node ≠ INVALID_EDGE_WEIGHT ∧
                0 ≤ key + b.2 + getLoopWeight g node then
              table.set (r * M + b.1)
                (min (table.getD (r * M + b.1) 0) (key + b.2 + getLoopWeight g node))
            else table
          else if key + b.2 < table.getD (r * M + b.1) 0 then
            table.set (r * M + b.1) (key + b.2)
          else table) =
        table.set (r * M + b.1) (specCellUpdate
          (table.getD (r * M + b.1) 0) key b.2 (getLoopWeight g node)) := by
      unfold specCellUpdate
      by_cases hn : key + b.2 < 0
      · rw [if_pos hn, if_pos hn]
        by_cases hl : getLoopWeight g node ≠ INVALID_EDGE_WEIGHT ∧
            0 ≤ key + b.2 + getLoopWeight g node
        · rw [if_pos hl, if_pos hl]
        · rw [if_neg hl, if_neg hl, list_set_getD_self]
      · rw [if_neg hn, if_neg hn]
        by_cases hc : key + b.2 < table.getD (r * M + b.1) 0
        · rw [if_pos hc, min_eq_right (Int.le_of_lt hc)]
        · rw [if_neg hc, min_eq_left (by omega), list_set_getD_self]
    rw [h1, h2, ih, List.foldl_cons]

theorem forwardRoutingStep_table (g : Graph) (r M : Nat) (h : QueryHeap)
    (buckets : SearchSpaceWithBuckets) (table : List Int) :
    (forwardRoutingStep g r M h buckets table).2 =
      match findBuckets buckets h.deleteMinNode with
      | some bl => forwardBucketFold g r M h.deleteMinNode
          ((h.removeNode h.deleteMinNode).getKey h.deleteMinNode) bl table
      | none => table := by
  unfold forwardRoutingStep
  dsimp only
  split <;> split <;> rfl

/-- C2: the forward sweep seeds every enabled segment of the source
phantom with key equal to minus its weight-plus-offset, and at every
settled node n each bucket (c, w) stored at n updates the table cell
(row, c) to min(current, key(n)+w), with the special rule for
key(n)+w < 0: the cell is updated with key(n)+w+loop_weight(n), and only
when a loop for n exists (loop weight not INVALID_EDGE_WEIGHT) and
key(n)+w+loop ≥ 0. -/
theorem forward_sweep_seed_and_update_spec :
    (∀ p : PhantomNode,
      (seedSourceHeap p).entries.map (fun e => (e.node, e.key)) =
        specSourceSeeds p) ∧
    (∀ (g : Graph) (r M : Nat) (h : QueryHeap)
        (buckets : SearchSpaceWithBuckets) (table : List Int),
      (forwardRoutingStep g r M h buckets table).2 =
        specTableUpdate g r M h.deleteMinNode
          ((h.removeNode h.deleteMinNode).getKey h.deleteMinNode) buckets table) := by
  constructor
  · intro p
    cases hf : p.forward_segment_id.enabled <;>
      cases hr : p.reverse_segment_id.enabled <;>
        simp [seedSourceHeap, specSourceSeeds, QueryHeap.insert, QueryHeap.clear,
          PhantomNode.GetForwardWeightPlusOffset,
          PhantomNode.GetReverseWeightPlusOffset, hf, hr, Int.add_comm]
  · intro g r M h buckets table
    rw [forwardRoutingStep_table]
    unfold specTableUpdate
    cases findBuckets buckets h.deleteMinNode with
    | none => rfl
    | some bl => exact forwardBucketFold_spec g r M _ _ bl table


/-! ## Claim C1: settled keys under stall-on-demand -/

def HeapReaches (g : Graph) (dir : Bool) (seeds : List (Nat × Int))
    (h : QueryHeap) : Prop :=
  ∀ e ∈ h.entries, Reaches g dir seeds e.node e.key

theorem heapReaches_insert {g : Graph} {dir : Bool} {seeds : List (Nat × Int)}
    {h : QueryHeap} {n : Nat} {k : Int} {p : Nat}
    (hh : HeapReaches g dir seeds h) (hr : Reaches g dir seeds n k) :
    HeapReaches g dir seeds (h.insert n k p) := by
  intro e he
  unfold QueryHeap.insert at he
  rcases List.mem_append.mp he with h1 | h2
  · exact hh e h1
  · rcases List.mem_singleton.mp h2 with rfl
    exact hr

theorem heapReaches_decreaseKey {g : Graph} {dir : Bool}
    {seeds : List (Nat × Int)} {h : QueryHeap} {n : Nat} {k : Int} {p : Nat}
    (hh : HeapReaches g dir seeds h) (hr : Reaches g dir seeds n k) :
    HeapReaches g dir seeds (h.decreaseKey n k p) := by
  intro e he
  unfold QueryHeap.decreaseKey at he
  rcases List.mem_map.mp he with ⟨e0, he0, hmap⟩
  by_cases hn : e0.node = n
  · rw [if_pos hn] at hmap
    rw [← hmap]
    simpa [hn] using hr
  · rw [if_neg hn] at hmap
    rw [← hmap]
    exact hh e0 he0

theorem heapReaches_removeNode {g : Graph} {dir : Bool}
    {seeds : List (Nat × Int)} {h : QueryHeap} {m : Nat}
    (hh : HeapReaches g dir seeds h) :
    HeapReaches g dir seeds (h.removeNode m) := by
  intro e he
  unfold QueryHeap.removeNode at he
  rcases List.mem_map.mp he with ⟨e0, he0, hmap⟩
  by_cases hn : e0.node = m
  · rw [if_pos hn] at hmap
    rw [← hmap]
    exact hh e0 he0
  · rw [if_neg hn] at hmap
    rw [← hmap]
    exact hh e0 he0

theorem wasInserted_removeNode {h : QueryHeap} {m n : Nat}
    (hi : h.wasInserted n) : (h.removeNode m).wasInserted n := by
  rcases hi with ⟨e, he, hn⟩
  refine ⟨(if e.node = m then { e with removed := true } else e),
    List.mem_map_of_mem _ he, ?_⟩
  by_cases hm : e.node = m
  · rw [if_pos hm]
    exact hn
  · rw [if_neg hm]
    exact hn

theorem getKey_mem {h : QueryHeap} {n : Nat} (hi : h.wasInserted n) :
    ∃ e ∈ h.entries, e.node = n ∧ h.getKey n = e.key := by
  unfold QueryHeap.getKey
  cases hfind : h.entries.find? (fun e => e.node == n) with
  | some e =>
    refine ⟨e, List.mem_of_find?_eq_some hfind, ?_, rfl⟩
    have := List.find?_some hfind
    simpa using this
  | none =>
    exfalso
    rcases hi with ⟨e, he, hn⟩
    have := List.find?_eq_none.mp hfind e he
    simp [hn] at this

theorem getKey_sound {g : Graph} {dir : Bool} {seeds : List (Nat × Int)}
    {h : QueryHeap} {n : Nat} (hh : HeapReaches g dir seeds h)
    (hi : h.wasInserted n) : Reaches g dir seeds n (h.getKey n) := by
  rcases getKey_mem hi with ⟨e, he, hn, hk⟩
  rw [hk, ← hn]
  exact hh e he

theorem minLiveStep_cases (acc : Option HeapEntry) (e : HeapEntry) :
    minLiveStep acc e = acc ∨ minLiveStep acc e = some e := by
  unfold minLiveStep
  by_cases h : e.removed
  · rw [if_pos h]
    exact Or.inl rfl
  · rw [if_neg h]
    cases acc with
    | none => exact Or.inr rfl
    | some m =>
      by_cases hk : e.key < m.key
      · exact Or.inr (by simp [hk])
      · exact Or.inl (by simp [hk])

theorem foldl_minLiveStep_mem :
    ∀ (l : List HeapEntry) (acc : Option HeapEntry) (e : HeapEntry),
      l.foldl minLiveStep acc = some e → acc = some e ∨ e ∈ l := by
  intro l
  induction l with
  | nil =>
    intro acc e h
    exact Or.inl h
  | cons y rest ih =>
    intro acc e h
    rw [List.foldl_cons] at h
    rcases ih (minLiveStep acc y) e h with hstep | hmem
    · rcases minLiveStep_cases acc y with hc | hc
      · rw [hc] at hstep
        exact Or.inl hstep
      · rw [hc] at hstep
        rcases Option.some_inj.mp hstep with rfl
        exact Or.inr (List.mem_cons_self _ _)
    · exact Or.inr (List.mem_cons_of_mem _ hmem)

theorem minLive_mem {h : QueryHeap} {e : HeapEntry}
    (hm : h.minLive = some e) : e ∈ h.entries := by
  rcases foldl_minLiveStep_mem h.entries none e hm with h1 | h2
  · cases h1
  · exact h2

theorem minLiveStep_none {acc : Option HeapEntry} {e : HeapEntry}
    (h : minLiveStep acc e = none) : acc = none ∧ e.removed = true := by
  unfold minLiveStep at h
  by_cases hr : e.removed
  · rw [if_pos hr] at h
    exact ⟨h, hr⟩
  · rw [if_neg hr] at h
    exfalso
    cases acc with
    | none => simp at h
    | some m =>
      by_cases hk : e.key < m.key
      · simp [hk] at h
      · simp [hk] at h

theorem foldl_minLiveStep_none :
    ∀ (l : List HeapEntry) (acc : Option HeapEntry),
      l.foldl minLiveStep acc = none → acc = none ∧ ∀ e ∈ l, e.removed = true := by
  intro l
  induction l with
  | nil =>
    intro acc h
    exact ⟨h, by simp⟩
  | cons y rest ih =>
    intro acc h
    rw [List.foldl_cons] at h
    rcases ih (minLiveStep acc y) h with ⟨hstep, hall⟩
    rcases minLiveStep_none hstep with ⟨hacc, hy⟩
    refine ⟨hacc, ?_⟩
    intro e he
    rcases List.mem_cons.mp he with rfl | hr
    · exact hy
    · exact hall e hr

theorem minLive_isSome_of_not_isEmpty {h : QueryHeap} (hne : ¬ h.isEmpty) :
    ∃ e, h.minLive = some e := by
  cases hm : h.minLive with
  | some e => exact ⟨e, rfl⟩
  | none =>
    exact absurd (foldl_minLiveStep_none h.entries none hm).2 hne


theorem relaxOutgoingEdges_sound {g : Graph} {dir : Bool}
    {seeds : List (Nat × Int)} {u : Nat} {w : Int} {h : QueryHeap}
    (hh : HeapReaches g dir seeds h) (hu : Reaches g dir seeds u w) :
    HeapReaches g dir seeds (relaxOutgoingEdges g dir u w h) := by
  unfold relaxOutgoingEdges
  have main : ∀ (l : List EdgeData), (∀ e ∈ l, e ∈ g.adjOf u) →
      ∀ (h0 : QueryHeap), HeapReaches g dir seeds h0 →
      HeapReaches g dir seeds (l.foldl (fun h data =>
        if (if dir then data.forward else data.backward) = true then
          let toNode := data.target
          let to_distance := w + data.distance
          if ¬ h.wasInserted toNode then h.insert toNode to_distance u
          else if to_distance < h.getKey toNode then h.decreaseKey toNode to_distance u
          else h
        else h) h0) := by
    intro l
    induction l with
    | nil =>
      intro _ h0 hh0
      exact hh0
    | cons e rest ih =>
      intro hsub h0 hh0
      rw [List.foldl_cons]
      apply ih (fun x hx => hsub x (List.mem_cons_of_mem _ hx))
      have hmem : e ∈ g.adjOf u := hsub e (List.mem_cons_self _ _)
      have hstep : HeapReaches g dir seeds
          (if (if dir then e.forward else e.backward) = true then
            (if ¬ h0.wasInserted e.target then h0.insert e.target (w + e.distance) u
             else if w + e.distance < h0.getKey e.target then
               h0.decreaseKey e.target (w + e.distance) u
             else h0)
          else h0) := by
        by_cases hflag : (if dir then e.forward else e.backward) = true
        · rw [if_pos hflag]
          by_cases hins : h0.wasInserted e.target
          · rw [if_neg (not_not_intro hins)]
            by_cases hlt : w + e.distance < h0.getKey e.target
            · rw [if_pos hlt]
              exact heapReaches_decreaseKey hh0 (Reaches.step e hu hmem hflag)
            · rw [if_neg hlt]
              exact hh0
          · rw [if_pos hins]
            exact heapReaches_insert hh0 (Reaches.step e hu hmem hflag)
        · rw [if_neg hflag]
          exact hh0
      exact hstep
  exact main (g.adjOf u) (fun _ hx => hx) h hh

theorem heapOfSeeds_sound (g : Graph) (dir : Bool) (seeds : List (Nat × Int)) :
    HeapReaches g dir seeds (heapOfSeeds seeds) := by
  unfold heapOfSeeds
  have main : ∀ (l : List (Nat × Int)), (∀ s ∈ l, s ∈ seeds) →
      ∀ (h0 : QueryHeap), HeapReaches g dir seeds h0 →
      HeapReaches g dir seeds
        (l.foldl (fun h s => h.insert s.1 s.2 s.1) h0) := by
    intro l
    induction l with
    | nil =>
      intro _ h0 hh0
      exact hh0
    | cons y rest ih =>
      intro hsub h0 hh0
      rw [List.foldl_cons]
      apply ih (fun x hx => hsub x (List.mem_cons_of_mem _ hx))
      exact heapReaches_insert hh0
        (Reaches.seed (show (y.1, y.2) ∈ seeds from hsub y (List.mem_cons_self _ _)))
  refine main seeds (fun _ hx => hx) QueryHeap.clear ?_
  intro e he
  exact absurd he (List.not_mem_nil e)

theorem searchSettleTrace_sound (g : Graph) (dir : Bool)
    (seeds : List (Nat × Int)) :
    ∀ (fuel : Nat) (h : QueryHeap), HeapReaches g dir seeds h →
      ∀ n k, (n, k) ∈ searchSettleTrace g dir fuel h →
        Reaches g dir seeds n k := by
  intro fuel
  induction fuel with
  | zero =>
    intro h _ n k hmem
    exact absurd hmem (List.not_mem_nil _)
  | succ f ih =>
    intro h hh n k hmem
    by_cases hemp : h.isEmpty
    · rw [searchSettleTrace, if_pos hemp] at hmem
      exact absurd hmem (List.not_mem_nil _)
    · have hmem2 : (n, k) ∈
          (h.deleteMinNode,
            (h.removeNode h.deleteMinNode).getKey h.deleteMinNode) ::
          searchSettleTrace g dir f
            (if stallAtNode g dir h.deleteMinNode
                ((h.removeNode h.deleteMinNode).getKey h.deleteMinNode)
                (h.removeNode h.deleteMinNode)
              then h.removeNode h.deleteMinNode
              else relaxOutgoingEdges g dir h.deleteMinNode
                ((h.removeNode h.deleteMinNode).getKey h.deleteMinNode)
                (h.removeNode h.deleteMinNode)) := by
        rw [searchSettleTrace, if_neg hemp] at hmem
        exact hmem
      rcases minLive_isSome_of_not_isEmpty hemp with ⟨e, hml⟩
      have hnode : h.deleteMinNode = e.node := by
        unfold QueryHeap.deleteMinNode
        rw [hml]
      have hin : h.wasInserted h.deleteMinNode := by
        rw [hnode]
        exact ⟨e, minLive_mem hml, rfl⟩
      have hh1 : HeapReaches g dir seeds (h.removeNode h.deleteMinNode) :=
        heapReaches_removeNode hh
      have hsettled : Reaches g dir seeds h.deleteMinNode
          ((h.removeNode h.deleteMinNode).getKey h.deleteMinNode) :=
        getKey_sound hh1 (wasInserted_removeNode hin)
      rcases List.mem_cons.mp hmem2 with heq | htail
      · injection heq with h1 h2
        subst h1
        subst h2
        exact hsettled
      · refine ih _ ?_ n k htail
        split
        · exact hh1
        · exact relaxOutgoingEdges_sound hh1 hsettled


/-- C1 (amended): in the CH searches of the many-to-many algorithm, every
node settled (removed by DeleteMin) — and hence every recorded bucket
weight — carries a key that is the weight of an actual path from the seed
set in the contracted, direction-restricted view, so the key is never
smaller than the shortest-path weight; with stall-on-demand it need not
equal it, and can strictly exceed what the reference Dijkstra over the
same edge set assigns. -/
theorem settled_keys_are_path_weights (g : Graph) (dir : Bool)
    (seeds : List (Nat × Int)) (fuel : Nat) (n : Nat) (k : Int)
    (hmem : (n, k) ∈ searchSettleTrace g dir fuel (heapOfSeeds seeds)) :
    Reaches g dir seeds n k ∧
    ∀ d, IsShortestDist g dir seeds n d → d ≤ k := by
  have hr := searchSettleTrace_sound g dir seeds fuel (heapOfSeeds seeds)
    (heapOfSeeds_sound g dir seeds) n k hmem
  exact ⟨hr, fun d hd => hd.2 k hr⟩

/-- Four nodes 0..3; forward edges 0→1 (10), 0→2 (100), 1→2 (1); the edge
stored at 1 towards 3 with weight 1 is traversable only backward, so with
3 seeded at 0 it stalls the settlement of node 1. -/
def c1Graph : Graph := ⟨[
  [⟨1, 10, true, false⟩, ⟨2, 100, true, false⟩],
  [⟨2, 1, true, false⟩, ⟨3, 1, false, true⟩],
  [],
  []]⟩

/-- Seeds of the counterexample search: nodes 0 and 3 at key 0. -/
def c1Seeds : List (Nat × Int) := [(0, 0), (3, 0)]

/-- Witness for C1 at the concrete graph: the settled pair (2, 100) is a
path weight and bounds every shortest distance of node 2. -/
theorem settled_keys_are_path_weights_witness :
    Reaches c1Graph true c1Seeds 2 100 ∧
    ∀ d, IsShortestDist c1Graph true c1Seeds 2 d → d ≤ 100 :=
  settled_keys_are_path_weights c1Graph true c1Seeds 10 2 100 (by decide)

/-- C1 counterexample: with stalling, node 2 is settled at key 100,
although a path of weight 11 exists in the same direction-restricted edge
set (so 100 is not the shortest-path weight), and the reference Dijkstra
over the same edge set settles node 2 at 11, not 100: node 1 is stalled
through the backward edge towards seeded node 3, so its edge 1→2 is never
relaxed. -/
theorem stalling_can_settle_suboptimal :
    (2, 100) ∈ searchSettleTrace c1Graph true 10 (heapOfSeeds c1Seeds) ∧
    Reaches c1Graph true c1Seeds 2 11 ∧
    ¬ IsShortestDist c1Graph true c1Seeds 2 100 ∧
    (2, 11) ∈ dijkstraSettleTrace c1Graph true 10 (heapOfSeeds c1Seeds) ∧
    (2, 100) ∉ dijkstraSettleTrace c1Graph true 10 (heapOfSeeds c1Seeds) := by
  have h11 : Reaches c1Graph true c1Seeds 2 11 := by
    have h0 : Reaches c1Graph true c1Seeds 0 0 := Reaches.seed (by decide)
    have h1 : Reaches c1Graph true c1Seeds 1 (0 + 10) :=
      Reaches.step ⟨1, 10, true, false⟩ h0 (by decide) rfl
    have h2 : Reaches c1Graph true c1Seeds 2 ((0 + 10) + 1) :=
      Reaches.step ⟨2, 1, true, false⟩ h1 (by decide) rfl
    simpa using h2
  refine ⟨by decide, h11, ?_, by decide, by decide⟩
  rintro ⟨_, hmin⟩
  have := hmin 11 h11
  omega


/-! ## Claim C8: table dimensions, empty index lists and the sentinel -/

theorem int_getD_set_ne (l : List Int) (j : Nat) (v : Int) :
    ∀ i, j ≠ i → (l.set j v).getD i 0 = l.getD i 0 := by
  intro i hne
  rw [List.getD_eq_getElem?_getD, List.getD_eq_getElem?_getD,
    List.getElem?_set_ne hne]

theorem length_forwardBucketFold (g : Graph) (r M node : Nat) (key : Int) :
    ∀ (bl : List (Nat × Int)) (table : List Int),
      (forwardBucketFold g r M node key bl table).length = table.length := by
  intro bl
  induction bl with
  | nil => intro table; rfl
  | cons b rest ih =>
    intro table
    rw [show forwardBucketFold g r M node key (b :: rest) table =
        forwardBucketFold g r M node key rest
          (if key + b.2 < 0 then
            if getLoopWeight g node ≠ INVALID_EDGE_WEIGHT ∧
                0 ≤ key + b.2 + getLoopWeight g node then
              table.set (r * M + b.1)
                (min (table.getD (r * M + b.1) 0) (key + b.2 + getLoopWeight g node))
            else table
          else if key + b.2 < table.getD (r * M + b.1) 0 then
            table.set (r * M + b.1) (key + b.2)
          else table) from rfl, ih]
    repeat' split
    all_goals simp [List.length_set]

theorem length_forwardRoutingStep (g : Graph) (r M : Nat) (h : QueryHeap)
    (buckets : SearchSpaceWithBuckets) (table : List Int) :
    ((forwardRoutingStep g r M h buckets table).2).length = table.length := by
  rw [forwardRoutingStep_table]
  cases findBuckets buckets h.deleteMinNode with
  | none => rfl
  | some bl => exact length_forwardBucketFold g r M _ _ bl table

theorem length_forwardSweepGo (g : Graph) (r M : Nat)
    (buckets : SearchSpaceWithBuckets) :
    ∀ fuel (h : QueryHeap) (table : List Int),
      (forwardSweepGo g r M buckets fuel h table).length = table.length := by
  intro fuel
  induction fuel with
  | zero => intro h table; rfl
  | succ f ih =>
    intro h table
    unfold forwardSweepGo
    split
    · rfl
    · rw [ih, length_forwardRoutingStep]

theorem length_forwardPhase (g : Graph) (M : Nat)
    (buckets : SearchSpaceWithBuckets) (fuel : Nat) :
    ∀ (sources : List PhantomNode) (row : Nat) (table : List Int),
      (forwardPhase g M buckets fuel row sources table).length = table.length := by
  intro sources
  induction sources with
  | nil => intro row table; rfl
  | cons p rest ih =>
    intro row table
    unfold forwardPhase
    rw [ih, length_forwardSweepGo]

/-- The number of selected sources or targets: all phantoms when the index
list is empty, else one per index. -/
def numberOfSelected (phantom_nodes : List PhantomNode) (indices : List Nat) : Nat :=
  if indices.isEmpty then phantom_nodes.length else indices.length

theorem manyToMany_length (g : Graph) (ph : List PhantomNode)
    (src tgt : List Nat) (fuel : Nat) :
    (manyToMany g ph src tgt fuel).length =
      numberOfSelected ph src * numberOfSelected ph tgt := by
  unfold manyToMany numberOfSelected
  rw [length_forwardPhase, List.length_replicate]


theorem resolvePhantoms_nil (ph : List PhantomNode) :
    resolvePhantoms ph [] = ph := rfl

theorem resolvePhantoms_range (ph : List PhantomNode) :
    resolvePhantoms ph (List.range ph.length) = ph := by
  unfold resolvePhantoms
  by_cases h : (List.range ph.length).isEmpty
  · rw [if_pos h]
  · rw [if_neg h]
    apply List.ext_getElem
    · simp
    · intro i h1 h2
      rw [List.getElem_map, List.getElem_range,
        List.getD_eq_getElem ph defaultPhantomNode h2]

theorem range_selected_count (ph : List PhantomNode) :
    (if (List.range ph.length).isEmpty then ph.length
      else (List.range ph.length).length) = ph.length := by
  by_cases h : (List.range ph.length).isEmpty
  · rw [if_pos h]
  · rw [if_neg h, List.length_range]

theorem manyToMany_empty_sources_all (g : Graph) (ph : List PhantomNode)
    (tgt : List Nat) (fuel : Nat) :
    manyToMany g ph [] tgt fuel =
      manyToMany g ph (List.range ph.length) tgt fuel := by
  simp only [manyToMany, resolvePhantoms_range, resolvePhantoms_nil,
    range_selected_count, List.isEmpty_nil, if_true]

theorem manyToMany_empty_targets_all (g : Graph) (ph : List PhantomNode)
    (src : List Nat) (fuel : Nat) :
    manyToMany g ph src [] fuel =
      manyToMany g ph src (List.range ph.length) fuel := by
  simp only [manyToMany, resolvePhantoms_range, resolvePhantoms_nil,
    range_selected_count, List.isEmpty_nil, if_true]


def bucketColOK (buckets : SearchSpaceWithBuckets) (c : Nat) : Prop :=
  ∀ p ∈ buckets, ∀ bw ∈ p.2, bw.1 ≠ c

def bucketColsBelow (buckets : SearchSpaceWithBuckets) (M : Nat) : Prop :=
  ∀ p ∈ buckets, ∀ bw ∈ p.2, bw.1 < M

theorem addBucket_mem {buckets : SearchSpaceWithBuckets} {node col : Nat}
    {dist : Int} {p : Nat × List (Nat × Int)} {bw : Nat × Int}
    (hp : p ∈ addBucket buckets node col dist) (hbw : bw ∈ p.2) :
    (∃ p0 ∈ buckets, bw ∈ p0.2) ∨ bw = (col, dist) := by
  unfold addBucket at hp
  by_cases hs : (buckets.find? (fun b => b.1 == node)).isSome
  · rw [if_pos hs] at hp
    rcases List.mem_map.mp hp with ⟨p0, hp0, hmap⟩
    by_cases hn : p0.1 = node
    · rw [if_pos hn] at hmap
      rw [← hmap] at hbw
      rcases List.mem_append.mp hbw with h1 | h2
      · exact Or.inl ⟨p0, hp0, h1⟩
      · exact Or.inr (List.mem_singleton.mp h2)
    · rw [if_neg hn] at hmap
      rw [← hmap] at hbw
      exact Or.inl ⟨p0, hp0, hbw⟩
  · rw [if_neg hs] at hp
    rcases List.mem_append.mp hp with h1 | h2
    · exact Or.inl ⟨p, h1, hbw⟩
    · rcases List.mem_singleton.mp h2 with rfl
      exact Or.inr (List.mem_singleton.mp hbw)

theorem bucketColOK_addBucket {buckets : SearchSpaceWithBuckets}
    {node col c : Nat} {dist : Int} (h : bucketColOK buckets c)
    (hne : col ≠ c) : bucketColOK (addBucket buckets node col dist) c := by
  intro p hp bw hbw
  rcases addBucket_mem hp hbw with ⟨p0, hp0, hbw0⟩ | rfl
  · exact h p0 hp0 bw hbw0
  · exact hne

theorem bucketColsBelow_addBucket {buckets : SearchSpaceWithBuckets}
    {node col M : Nat} {dist : Int} (h : bucketColsBelow buckets M)
    (hlt : col < M) : bucketColsBelow (addBucket buckets node col dist) M := by
  intro p hp bw hbw
  rcases addBucket_mem hp hbw with ⟨p0, hp0, hbw0⟩ | rfl
  · exact h p0 hp0 bw hbw0
  · exact hlt

theorem backwardRoutingStep_buckets (g : Graph) (col : Nat) (h : QueryHeap)
    (b : SearchSpaceWithBuckets) :
    (backwardRoutingStep g col h b).2 =
      addBucket b h.deleteMinNode col
        ((h.removeNode h.deleteMinNode).getKey h.deleteMinNode) := by
  unfold backwardRoutingStep
  dsimp only
  split <;> rfl

theorem backwardSweepGo_succ (g : Graph) (col f : Nat) (h : QueryHeap)
    (b : SearchSpaceWithBuckets) :
    backwardSweepGo g col (f + 1) h b =
      if h.isEmpty then b
      else backwardSweepGo g col f (backwardRoutingStep g col h b).1
        (backwardRoutingStep g col h b).2 := by
  rfl

theorem backwardSweepGo_isEmpty (g : Graph) (col : Nat) :
    ∀ fuel (h : QueryHeap) (b : SearchSpaceWithBuckets),
      h.isEmpty → backwardSweepGo g col fuel h b = b := by
  intro fuel h b he
  cases fuel with
  | zero => rfl
  | succ f =>
    rw [backwardSweepGo_succ, if_pos he]

theorem backwardSweepGo_colOK (g : Graph) (col : Nat) :
    ∀ fuel (h : QueryHeap) (b : SearchSpaceWithBuckets) (c : Nat),
      col ≠ c → bucketColOK b c →
      bucketColOK (backwardSweepGo g col fuel h b) c := by
  intro fuel
  induction fuel with
  | zero => intro h b c _ hb; exact hb
  | succ f ih =>
    intro h b c hne hb
    rw [backwardSweepGo_succ]
    by_cases he : h.isEmpty
    · rw [if_pos he]; exact hb
    · rw [if_neg he]
      apply ih _ _ _ hne
      rw [backwardRoutingStep_buckets]
      exact bucketColOK_addBucket hb hne

theorem backwardSweepGo_colsBelow (g : Graph) (col : Nat) :
    ∀ fuel (h : QueryHeap) (b : SearchSpaceWithBuckets) (M : Nat),
      col < M → bucketColsBelow b M →
      bucketColsBelow (backwardSweepGo g col fuel h b) M := by
  intro fuel
  induction fuel with
  | zero => intro h b M _ hb; exact hb
  | succ f ih =>
    intro h b M hlt hb
    rw [backwardSweepGo_succ]
    by_cases he : h.isEmpty
    · rw [if_pos he]; exact hb
    · rw [if_neg he]
      apply ih _ _ _ hlt
      rw [backwardRoutingStep_buckets]
      exact bucketColsBelow_addBucket hb hlt

theorem seedTargetHeap_disabled {p : PhantomNode}
    (hf : p.forward_segment_id.enabled = false)
    (hr : p.reverse_segment_id.enabled = false) :
    (seedTargetHeap p).isEmpty := by
  unfold seedTargetHeap
  rw [hf, hr]
  intro e he
  exact absurd he (List.not_mem_nil e)

theorem backwardPhase_colOK (g : Graph) (fuel : Nat) :
    ∀ (targets : List PhantomNode) (col0 : Nat) (b : SearchSpaceWithBuckets)
      (c : Nat), bucketColOK b c →
      (∀ j, j < targets.length → col0 + j = c →
        (targets.getD j defaultPhantomNode).forward_segment_id.enabled = false ∧
        (targets.getD j defaultPhantomNode).reverse_segment_id.enabled = false) →
      bucketColOK (backwardPhase g fuel col0 targets b) c := by
  intro targets
  induction targets with
  | nil => intro col0 b c hb _; exact hb
  | cons p rest ih =>
    intro col0 b c hb hdis
    unfold backwardPhase
    apply ih
    · by_cases hc : col0 = c
      · rcases hdis 0 (by simp) (by omega) with ⟨hf, hr⟩
        rw [backwardSweepGo_isEmpty _ _ _ _ _
          (seedTargetHeap_disabled (by simpa using hf) (by simpa using hr))]
        exact hb
      · exact backwardSweepGo_colOK g col0 fuel _ b c hc hb
    · intro j hj hcol
      have := hdis (j + 1) (by simpa using Nat.succ_lt_succ hj) (by omega)
      simpa using this

theorem backwardPhase_colsBelow (g : Graph) (fuel : Nat) :
    ∀ (targets : List PhantomNode) (col0 : Nat) (b : SearchSpaceWithBuckets)
      (M : Nat), bucketColsBelow b M → col0 + targets.length ≤ M →
      bucketColsBelow (backwardPhase g fuel col0 targets b) M := by
  intro targets
  induction targets with
  | nil => intro col0 b M hb _; exact hb
  | cons p rest ih =>
    intro col0 b M hb hle
    unfold backwardPhase
    apply ih
    · exact backwardSweepGo_colsBelow g col0 fuel _ b M (by simp at hle; omega) hb
    · simp at hle ⊢
      omega


theorem forwardBucketFold_frame (g : Graph) (row M node : Nat) (key : Int) :
    ∀ (bl : List (Nat × Int)) (table : List Int) (i : Nat),
      (∀ bw ∈ bl, row * M + bw.1 ≠ i) →
      (forwardBucketFold g row M node key bl table).getD i 0 =
        table.getD i 0 := by
  intro bl
  induction bl with
  | nil => intro table i _; rfl
  | cons b rest ih =>
    intro table i hne
    rw [show forwardBucketFold g row M node key (b :: rest) table =
        forwardBucketFold g row M node key rest
          (if key + b.2 < 0 then
            if getLoopWeight g node ≠ INVALID_EDGE_WEIGHT ∧
                0 ≤ key + b.2 + getLoopWeight g node then
              table.set (row * M + b.1)
                (min (table.getD (row * M + b.1) 0) (key + b.2 + getLoopWeight g node))
            else table
          else if key + b.2 < table.getD (row * M + b.1) 0 then
            table.set (row * M + b.1) (key + b.2)
          else table) from rfl,
      ih _ _ (fun bw hbw => hne bw (List.mem_cons_of_mem _ hbw))]
    have hbne : row * M + b.1 ≠ i := hne b (List.mem_cons_self _ _)
    repeat' split
    all_goals first
      | rfl
      | (rw [int_getD_set_ne _ _ _ _ hbne])

theorem findBuckets_mem {buckets : SearchSpaceWithBuckets} {node : Nat}
    {bl : List (Nat × Int)} (h : findBuckets buckets node = some bl) :
    ∃ p ∈ buckets, p.2 = bl := by
  unfold findBuckets at h
  cases hf : buckets.find? (fun b => b.1 == node) with
  | none => rw [hf] at h; cases h
  | some p =>
    rw [hf] at h
    exact ⟨p, List.mem_of_find?_eq_some hf, by simpa using h⟩

theorem forwardRoutingStep_frame (g : Graph) (row M : Nat) (h : QueryHeap)
    (buckets : SearchSpaceWithBuckets) (table : List Int) (i : Nat)
    (hok : ∀ p ∈ buckets, ∀ bw ∈ p.2, row * M + bw.1 ≠ i) :
    ((forwardRoutingStep g row M h buckets table).2).getD i 0 =
      table.getD i 0 := by
  rw [forwardRoutingStep_table]
  cases hfb : findBuckets buckets h.deleteMinNode with
  | none => rfl
  | some bl =>
    rcases findBuckets_mem hfb with ⟨p, hp, hpeq⟩
    apply forwardBucketFold_frame
    intro bw hbw
    exact hok p hp bw (hpeq ▸ hbw)

theorem forwardSweepGo_succ (g : Graph) (row M : Nat)
    (buckets : SearchSpaceWithBuckets) (f : Nat) (h : QueryHeap)
    (table : List Int) :
    forwardSweepGo g row M buckets (f + 1) h table =
      if h.isEmpty then table
      else forwardSweepGo g row M buckets f
        (forwardRoutingStep g row M h buckets table).1
        (forwardRoutingStep g row M h buckets table).2 := rfl

theorem forwardSweepGo_frame (g : Graph) (row M : Nat)
    (buckets : SearchSpaceWithBuckets) (i : Nat)
    (hok : ∀ p ∈ buckets, ∀ bw ∈ p.2, row * M + bw.1 ≠ i) :
    ∀ fuel (h : QueryHeap) (table : List Int),
      (forwardSweepGo g row M buckets fuel h table).getD i 0 =
        table.getD i 0 := by
  intro fuel
  induction fuel with
  | zero => intro h table; rfl
  | succ f ih =>
    intro h table
    rw [forwardSweepGo_succ]
    by_cases he : h.isEmpty
    · rw [if_pos he]
    · rw [if_neg he, ih, forwardRoutingStep_frame g row M h buckets table i hok]

theorem forwardPhase_frame (g : Graph) (M : Nat)
    (buckets : SearchSpaceWithBuckets) (fuel : Nat) (i : Nat)
    (hok : ∀ p ∈ buckets, ∀ bw ∈ p.2, ∀ row, row * M + bw.1 ≠ i) :
    ∀ (sources : List PhantomNode) (row : Nat) (table : List Int),
      (forwardPhase g M buckets fuel row sources table).getD i 0 =
        table.getD i 0 := by
  intro sources
  induction sources with
  | nil => intro row table; rfl
  | cons p rest ih =>
    intro row table
    unfold forwardPhase
    rw [ih, forwardSweepGo_frame g row M buckets i
      (fun p hp bw hbw => hok p hp bw hbw row)]

theorem row_col_index_ne {M cIdx bIdx row r : Nat} (hb : bIdx < M)
    (hc : cIdx < M) (hne : bIdx ≠ cIdx) :
    row * M + bIdx ≠ r * M + cIdx := by
  intro h
  have h1 : (row * M + bIdx) % M = bIdx := by
    rw [Nat.add_comm, Nat.add_mul_mod_self_right]
    exact Nat.mod_eq_of_lt hb
  have h2 : (r * M + cIdx) % M = cIdx := by
    rw [Nat.add_comm, Nat.add_mul_mod_self_right]
    exact Nat.mod_eq_of_lt hc
  rw [h] at h1
  rw [h1] at h2
  exact hne h2

theorem getD_replicate_of_lt (n : Nat) (a : Int) (i : Nat) (h : i < n) :
    (List.replicate n a).getD i 0 = a := by
  rw [List.getD_eq_getElem _ _ (by simpa using h), List.getElem_replicate]

theorem resolvePhantoms_length (ph : List PhantomNode) (indices : List Nat) :
    (resolvePhantoms ph indices).length = numberOfSelected ph indices := by
  unfold resolvePhantoms numberOfSelected
  by_cases h : indices.isEmpty
  · rw [if_pos h, if_pos h]
  · rw [if_neg h, if_neg h, List.length_map]

theorem index_lt_of_row_col {r c N M : Nat} (hr : r < N) (hc : c < M) :
    r * M + c < N * M := by
  have h1 : r * M + c < (r + 1) * M := by
    rw [Nat.succ_mul]
    omega
  have h2 : (r + 1) * M ≤ N * M := Nat.mul_le_mul_right M hr
  omega

theorem manyToMany_disabled_target_sentinel (g : Graph)
    (ph : List PhantomNode) (src tgt : List Nat) (fuel : Nat) (r c : Nat)
    (hr : r < numberOfSelected ph src) (hc : c < numberOfSelected ph tgt)
    (hf : ((resolvePhantoms ph tgt).getD c
      defaultPhantomNode).forward_segment_id.enabled = false)
    (hb : ((resolvePhantoms ph tgt).getD c
      defaultPhantomNode).reverse_segment_id.enabled = false) :
    (manyToMany g ph src tgt fuel).getD
      (r * numberOfSelected ph tgt + c) 0 = EDGE_WEIGHT_MAX := by
  have hlen : (resolvePhantoms ph tgt).length = numberOfSelected ph tgt :=
    resolvePhantoms_length ph tgt
  have hcolOK : bucketColOK
      (backwardPhase g fuel 0 (resolvePhantoms ph tgt) []) c := by
    apply backwardPhase_colOK
    · intro p hp
      exact absurd hp (List.not_mem_nil p)
    · intro j hj hcol
      have hj2 : j = c := by omega
      subst hj2
      exact ⟨hf, hb⟩
  have hbelow : bucketColsBelow
      (backwardPhase g fuel 0 (resolvePhantoms ph tgt) [])
      (numberOfSelected ph tgt) := by
    apply backwardPhase_colsBelow
    · intro p hp
      exact absurd hp (List.not_mem_nil p)
    · omega
  have hframe := forwardPhase_frame g (numberOfSelected ph tgt)
    (backwardPhase g fuel 0 (resolvePhantoms ph tgt) []) fuel
    (r * numberOfSelected ph tgt + c)
    (fun p hp bw hbw row =>
      row_col_index_ne (hbelow p hp bw hbw) hc (hcolOK p hp bw hbw))
    (resolvePhantoms ph src) 0
    (List.replicate (numberOfSelected ph src * numberOfSelected ph tgt)
      EDGE_WEIGHT_MAX)
  have hmain : manyToMany g ph src tgt fuel =
      forwardPhase g (numberOfSelected ph tgt)
        (backwardPhase g fuel 0 (resolvePhantoms ph tgt) []) fuel 0
        (resolvePhantoms ph src)
        (List.replicate (numberOfSelected ph src * numberOfSelected ph tgt)
          EDGE_WEIGHT_MAX) := rfl
  rw [hmain, hframe,
    getD_replicate_of_lt _ _ _ (index_lt_of_row_col hr hc)]


/-- C8: in the many-to-many table computation, an empty source (resp.
target) index list selects every phantom node as a source (resp. target);
the returned weight vector always has length number_of_sources x
number_of_targets; and a cell whose column is never reached by any
forward sweep over a bucket — here: the column of a target phantom with
both segments disabled, which seeds nothing and records no buckets —
still carries the sentinel maximum weight it was initialized with. -/
theorem manyToMany_table_shape :
    (∀ (g : Graph) (ph : List PhantomNode) (src tgt : List Nat) (fuel : Nat),
      (manyToMany g ph src tgt fuel).length =
        numberOfSelected ph src * numberOfSelected ph tgt) ∧
    (∀ (g : Graph) (ph : List PhantomNode) (tgt : List Nat) (fuel : Nat),
      manyToMany g ph [] tgt fuel =
        manyToMany g ph (List.range ph.length) tgt fuel) ∧
    (∀ (g : Graph) (ph : List PhantomNode) (src : List Nat) (fuel : Nat),
      manyToMany g ph src [] fuel =
        manyToMany g ph src (List.range ph.length) fuel) ∧
    (∀ (g : Graph) (ph : List PhantomNode) (src tgt : List Nat) (fuel r c : Nat),
      r < numberOfSelected ph src → c < numberOfSelected ph tgt →
      ((resolvePhantoms ph tgt).getD c
        defaultPhantomNode).forward_segment_id.enabled = false →
      ((resolvePhantoms ph tgt).getD c
        defaultPhantomNode).reverse_segment_id.enabled = false →
      (manyToMany g ph src tgt fuel).getD
        (r * numberOfSelected ph tgt + c) 0 = EDGE_WEIGHT_MAX) :=
  ⟨manyToMany_length, manyToMany_empty_sources_all, manyToMany_empty_targets_all,
    manyToMany_disabled_target_sentinel⟩

/-- A phantom with only the forward segment enabled, for the C8 witness. -/
def c8EnabledPhantom : PhantomNode :=
  ⟨⟨0, true⟩, ⟨0, false⟩, 1, 5, 5, 0, 0, 0, 0, 0, false, ⟨0, 0⟩, ⟨0, 0⟩, 0, 1, 1⟩

/-- A phantom with both segments disabled, for the C8 witness. -/
def c8DisabledPhantom : PhantomNode :=
  ⟨⟨0, false⟩, ⟨0, false⟩, 1, 5, 5, 0, 0, 0, 0, 0, false, ⟨0, 0⟩, ⟨0, 0⟩, 0, 1, 1⟩

/-- The phantom list of the C8 witness. -/
def c8Phantoms : List PhantomNode := [c8EnabledPhantom, c8DisabledPhantom]

/-- A one-node graph with a self-loop, for the C8 witness. -/
def c8Graph : Graph := ⟨[[⟨0, 1, true, true⟩]]⟩

/-- Witness for C8 at a concrete query: the column of the disabled target
phantom keeps the sentinel in row 0. -/
theorem manyToMany_table_shape_witness :
    (manyToMany c8Graph c8Phantoms [] [] 10).getD
      (0 * numberOfSelected c8Phantoms [] + 1) 0 = EDGE_WEIGHT_MAX :=
  manyToMany_table_shape.2.2.2 c8Graph c8Phantoms [] [] 10 0 1
    (by decide) (by decide) (by decide) (by decide)

end Osrm
